import Mathlib

/-!
Verification of the study-app answer-recovery pipeline.

This file gives a shallow embedding, in Lean 4, of the core functions of the
multi-stage answer-recovery pipeline of the study-app repository
(src/tools/answer_parser.py, src/tools/v2_answer_parser.py,
src/tools/aggressive_parser.py, src/tools/v2_aggressive_parser.py,
src/tools/data_combiner.py), and proves properties of that embedding.

Modelling conventions:
* Python strings are modelled as `List Char` (`Str`); `String` literals are
  converted with `strL`.
* Python floats are modelled as exact rationals `ℚ`.  All the constants that
  occur in the code (0.2, 0.3, 0.4, ...) are decimal literals, so the
  rational model tracks the float code faithfully for the order comparisons
  the theorems are about.  `round(x, 3)` (banker's rounding) is modelled by
  `pyRound3` on `ℚ`.
* Python dicts keyed by ints are modelled as association lists with
  insert-or-replace semantics (`dictInsert`), which preserves the lookup
  behaviour of the source.
* Statistics counters that do not feed back into the parsing logic are
  threaded explicitly where a claim needs them and omitted otherwise.
-/

namespace StudyApp

/-- Python strings are modelled as lists of characters. -/
abbrev Str := List Char

/-- Convert a Lean string literal to the `Str` model. -/
def strL (s : String) : Str := s.data

/-- Python `str.lower` on one ASCII character. -/
def pyLowerChar (c : Char) : Char :=
  if 'A' ≤ c ∧ c ≤ 'Z' then Char.ofNat (c.toNat + 32) else c

/-- Python `str.upper` on one ASCII character. -/
def pyUpperChar (c : Char) : Char :=
  if 'a' ≤ c ∧ c ≤ 'z' then Char.ofNat (c.toNat - 32) else c

/-- Python `str.lower` (ASCII fragment, which covers the pipeline's data). -/
def pyLower (s : Str) : Str := s.map pyLowerChar

/-- Python `str.upper` (ASCII fragment). -/
def pyUpper (s : Str) : Str := s.map pyUpperChar

/-- The characters Python's `str.strip` / `\s` treat as whitespace. -/
def pyIsSpace (c : Char) : Bool :=
  c == ' ' || c == '\t' || c == '\n' || c == '\x0d' || c == '\x0b' || c == '\x0c'

/-- Python `str.isdigit` on ASCII characters (the delimiter digits). -/
def pyIsDigit (c : Char) : Bool := '0' ≤ c && c ≤ '9'

/-- Python `str.strip()`: drop whitespace from both ends. -/
def pyStrip (s : Str) : Str :=
  ((s.dropWhile pyIsSpace).reverse.dropWhile pyIsSpace).reverse

/-- Does `pat` occur at the head of `text`?  (Helper for substring search.) -/
def headMatches : Str → Str → Bool
  | [], _ => true
  | _ :: _, [] => false
  | p :: ps, t :: ts => p == t && headMatches ps ts

/-- Python `pat in text` (substring containment). -/
def containsSub (text pat : Str) : Bool :=
  match text with
  | [] => pat.isEmpty
  | _ :: rest => headMatches pat text || containsSub rest pat

/-- Index of the first occurrence of `pat` in `text` (Python `str.find`,
with `none` for Python's `-1`). -/
def findSub (text pat : Str) : Option Nat :=
  match text with
  | [] => if pat.isEmpty then some 0 else none
  | _ :: rest =>
    if headMatches pat text then some 0
    else (findSub rest pat).map (· + 1)

/-- Python `str.split()` with no argument: split on whitespace runs and
drop the empty pieces. -/
def pySplitWs (s : Str) : List Str :=
  (List.splitOnP pyIsSpace s).filter (fun w => !w.isEmpty)

/-- Python `str.split(sep)` for a one-character separator. -/
def pySplitChar (s : Str) (sep : Char) : List Str :=
  List.splitOnP (fun c => c == sep) s

/-- The seen-set deduplication loop of `V2AnswerParser.extract_answer_letters`:
keep the first occurrence of each character, preserving order. -/
def dedupLoop : Str → Str → Str
  | _, [] => []
  | seen, c :: rest =>
    if c ∈ seen then dedupLoop seen rest else c :: dedupLoop (c :: seen) rest

/-- Floor of a rational as an integer (used by the rounding model). -/
def ratFloorZ (q : ℚ) : ℤ := Int.fdiv q.num (q.den : ℤ)

/-- Round-half-to-even to the nearest integer, the rounding Python's
`round` uses. -/
def pyRoundHalfEven (q : ℚ) : ℤ :=
  let f := ratFloorZ q
  let r := q - (f : ℚ)
  if r < 1/2 then f
  else if (1 : ℚ)/2 < r then f + 1
  else if f % 2 = 0 then f else f + 1

/-- Python `round(x, 3)` modelled on `ℚ`. -/
def pyRound3 (q : ℚ) : ℚ := (pyRoundHalfEven (q * 1000) : ℚ) / 1000

/-- Left-pad a numeral to three digits (helper for `formatQ3`). -/
def pad3 (n : ℕ) : String :=
  if n < 10 then "00" ++ toString n
  else if n < 100 then "0" ++ toString n
  else toString n

/-- Python `f-string` formatting with `:.3f` for the nonnegative scores the
pipeline prints into issue messages. -/
def formatQ3 (q : ℚ) : String :=
  let m := (pyRoundHalfEven (q * 1000)).toNat
  toString (m / 1000) ++ "." ++ pad3 (m % 1000)

/-! ## Association-list model of Python dicts keyed by question number -/

/-- Python `d[k] = v`: replace in place if the key is present, else append. -/
def dictInsert {α : Type} (d : List (Nat × α)) (k : Nat) (v : α) :
    List (Nat × α) :=
  match d with
  | [] => [(k, v)]
  | (k0, v0) :: rest =>
    if k0 = k then (k, v) :: rest else (k0, v0) :: dictInsert rest k v

/-- Python `k in d`. -/
def dictContains {α : Type} (d : List (Nat × α)) (k : Nat) : Bool :=
  d.any (fun e => e.1 == k)

/-- Python `d[k]` / `d.get(k)`. -/
def dictGet {α : Type} (d : List (Nat × α)) (k : Nat) : Option α :=
  (d.find? (fun e => e.1 == k)).map (·.2)

/-! ## src/tools/data_combiner.py — `DataCombiner.merge_answer_sources`

The answer dicts that the combiner merges.  Only the fields the merge logic
touches are modelled: the join key `answer_number`, the provenance tag
`extraction_method` carried along from the producing stage, and the `source`
field the combiner itself writes. -/

structure SrcAnswer where
  answer_number : Nat
  extraction_method : String
  source : Option String := none
deriving DecidableEq, Repr

/-- `answer['source'] = tag` from the merge loop. -/
def withSource (a : SrcAnswer) (tag : String) : SrcAnswer :=
  { a with source := some tag }

/-- `DataCombiner.merge_answer_sources` (data_combiner.py lines 118-141):
add all enhanced answers to a dict keyed by `answer_number`, then add each
aggressive answer only when its key is absent, counting the clash in the
`duplicate_answers` statistic.  Returns the combined dict and the duplicate
counter. -/
def merge_answer_sources (enhanced aggressive : List SrcAnswer) :
    List (Nat × SrcAnswer) × Nat :=
  let combined := enhanced.foldl
    (fun d a => dictInsert d a.answer_number (withSource a "enhanced")) []
  aggressive.foldl
    (fun st a =>
      if dictContains st.1 a.answer_number then (st.1, st.2 + 1)
      else (dictInsert st.1 a.answer_number (withSource a "aggressive"), st.2))
    (combined, 0)

/-- The validated mapping result produced by
`V2AnswerParser.process_extracted_answer` and consumed by
`flag_for_manual_review`. -/
structure MappingResult where
  correct_answers : List Nat
  validation_confidence : ℚ
  mapping_issues : List String
  mapping_method : String
deriving DecidableEq, Repr

/-! ## difflib.SequenceMatcher

`v2_answer_parser.py` computes string similarity with
`SequenceMatcher(None, x, y).ratio()`.  The embedding below follows CPython's
difflib: `b2j` (with the autojunk rule), `find_longest_match` (row loop with
the `j2len` dict and the two extension loops; the junk-extension loops are
omitted because with `isjunk=None` the junk set is always empty), the
divide-and-conquer block collection of `get_matching_blocks` (realised
recursively: the worklist in difflib processes exactly the two sub-regions
around each nonempty longest match), and `ratio = 2*M/T`. -/

/-- difflib `b2j`: ascending positions of `c` in `b`; when `b` has at least
200 characters, characters occurring more than `len(b)//100 + 1` times are
"popular" and get no positions (autojunk). -/
def b2j (b : Str) (c : Char) : List Nat :=
  if 200 ≤ b.length && b.length / 100 + 1 < (b.filter (· == c)).length then []
  else (b.enum.filter (fun p => p.2 == c)).map (fun p => p.1)

/-- Lookup in the `j2len` dict with default 0 (difflib `j2len.get(j-1, 0)`). -/
def j2lenGet (m : List (Nat × Nat)) (j : Nat) : Nat :=
  (((m.find? (fun e => e.1 == j)).map (fun e => e.2))).getD 0

/-- State of `find_longest_match`'s inner loop: the row dict being built and
the best block found so far. -/
structure FlmState where
  row : List (Nat × Nat)
  besti : Nat
  bestj : Nat
  bestsize : Nat

/-- One step of `find_longest_match`'s inner loop over the positions `j` of
`a[i]` in `b`: `k = j2len.get(j-1, 0) + 1`, record it in the new row, and
update the best block when `k > bestsize`. -/
def flmJStep (prev : List (Nat × Nat)) (i : Nat) (st : FlmState) (j : Nat) :
    FlmState :=
  let k := (if j = 0 then 0 else j2lenGet prev (j - 1)) + 1
  let row := (j, k) :: st.row
  if st.bestsize < k then ⟨row, i + 1 - k, j + 1 - k, k⟩
  else ⟨row, st.besti, st.bestj, st.bestsize⟩

/-- The row loop of `find_longest_match`, iterating `i` over `[alo, ahi)`
(`cnt` counts the remaining rows).  Within a row, `j` ranges over the
positions of `a[i]` in `b` restricted to `[blo, bhi)` (difflib's
`continue`/`break` on the ascending position list). -/
def flmLoop (a b : Str) (blo bhi : Nat) :
    Nat → Nat → List (Nat × Nat) → Nat × Nat × Nat → Nat × Nat × Nat
  | 0, _, _, best => best
  | cnt + 1, i, prev, best =>
    let js := ((b2j b (a.getD i (Char.ofNat 0))).filter
        (fun j => decide (blo ≤ j))).takeWhile (fun j => decide (j < bhi))
    let st := js.foldl (flmJStep prev i) ⟨[], best.1, best.2.1, best.2.2⟩
    flmLoop a b blo bhi cnt (i + 1) st.row (st.besti, st.bestj, st.bestsize)

/-- The backward extension loop of `find_longest_match`: while
`besti > alo and bestj > blo and a[besti-1] == b[bestj-1]`, grow the block
leftwards.  The fuel is an upper bound on the iteration count (`besti`
decreases each pass); out-of-range reads use distinct defaults so they never
compare equal (they cannot occur for in-range arguments anyway). -/
def flmExtendLo (a b : Str) (alo blo : Nat) :
    Nat → Nat × Nat × Nat → Nat × Nat × Nat
  | 0, best => best
  | fuel + 1, (besti, bestj, bestsize) =>
    if alo < besti && blo < bestj &&
        (a.getD (besti - 1) (Char.ofNat 0) == b.getD (bestj - 1) (Char.ofNat 1))
    then flmExtendLo a b alo blo fuel (besti - 1, bestj - 1, bestsize + 1)
    else (besti, bestj, bestsize)

/-- The forward extension loop of `find_longest_match`: while
`besti+bestsize < ahi and bestj+bestsize < bhi` and the next characters
agree, grow the block rightwards. -/
def flmExtendHi (a b : Str) (ahi bhi : Nat) :
    Nat → Nat × Nat × Nat → Nat × Nat × Nat
  | 0, best => best
  | fuel + 1, (besti, bestj, bestsize) =>
    if besti + bestsize < ahi && bestj + bestsize < bhi &&
        (a.getD (besti + bestsize) (Char.ofNat 0) ==
          b.getD (bestj + bestsize) (Char.ofNat 1))
    then flmExtendHi a b ahi bhi fuel (besti, bestj, bestsize + 1)
    else (besti, bestj, bestsize)

/-- difflib `SequenceMatcher.find_longest_match(alo, ahi, blo, bhi)`:
the row loop followed by the two extension loops. -/
def find_longest_match (a b : Str) (alo ahi blo bhi : Nat) : Nat × Nat × Nat :=
  let best := flmLoop a b blo bhi (ahi - alo) alo [] (alo, blo, 0)
  let best := flmExtendLo a b alo blo a.length best
  flmExtendHi a b ahi bhi a.length best

/-- Total size of the matching blocks of a region, the sum difflib's
`ratio` takes over `get_matching_blocks()`.  The recursion mirrors the
worklist of `get_matching_blocks`: around every nonempty longest match the
two flanking sub-regions (queued only under the same guards as difflib)
are processed.  Each processed sub-region is strictly smaller in
`(ahi - alo) + (bhi - blo)` than its parent, so the fuel
`a.length + b.length + 1` used by `smRatioQ` below is never exhausted. -/
def matchingTotalF (a b : Str) : Nat → Nat → Nat → Nat → Nat → Nat
  | 0, _, _, _, _ => 0
  | fuel + 1, alo, ahi, blo, bhi =>
    let t := find_longest_match a b alo ahi blo bhi
    let i := t.1
    let j := t.2.1
    let k := t.2.2
    if k = 0 then 0
    else
      (if alo < i && blo < j then matchingTotalF a b fuel alo i blo j else 0) +
      k +
      (if i + k < ahi && j + k < bhi then
        matchingTotalF a b fuel (i + k) ahi (j + k) bhi else 0)

/-- `SequenceMatcher(None, a, b).ratio()`: `2*M/T`, or 1.0 when both strings
are empty (difflib `_calculate_ratio`). -/
def smRatioQ (a b : Str) : ℚ :=
  let m := matchingTotalF a b (a.length + b.length + 1) 0 a.length 0 b.length
  if a.length + b.length = 0 then 1
  else 2 * (m : ℚ) / ((a.length : ℚ) + (b.length : ℚ))

/-! ## src/tools/v2_answer_parser.py — letter extraction, mapping, validation -/

/-- `V2AnswerParser.aws_keywords` (v2_answer_parser.py lines 66-71). -/
def aws_keywords_v2 : List Str :=
  [strL "S3", strL "EC2", strL "VPC", strL "RDS", strL "Lambda",
   strL "CloudWatch", strL "IAM", strL "EBS", strL "ELB",
   strL "Auto Scaling", strL "CloudFormation", strL "Route 53",
   strL "CloudFront", strL "SQS", strL "SNS",
   strL "DynamoDB", strL "Kinesis", strL "API Gateway", strL "ElastiCache",
   strL "ECS", strL "EKS", strL "KMS",
   strL "Systems Manager", strL "CloudTrail", strL "Config",
   strL "GuardDuty", strL "Macie", strL "Inspector"]

/-- Is the character one of the valid answer letters `A`-`E`? -/
def isLetterAE (c : Char) : Bool := 'A' ≤ c && c ≤ 'E'

/-- `V2AnswerParser.extract_answer_letters` (lines 406-421): all `A`-`E`
characters of the upper-cased text (`re.findall(r'[A-E]', ...)`),
deduplicated with order preserved. -/
def extract_answer_letters (answer_text : Str) : Str :=
  let letters := (pyUpper answer_text).filter isLetterAE
  dedupLoop [] letters

/-- `V2AnswerParser.calculate_keyword_overlap` (lines 541-559): of the AWS
keywords contained in `text2`, the fraction also contained in `text1`
(0 when `text2` has none). -/
def calculate_keyword_overlap (text1 text2 : Str) : ℚ :=
  let t1 := pyLower text1
  let t2 := pyLower text2
  let total := (aws_keywords_v2.filter
    (fun kw => containsSub t2 (pyLower kw))).length
  let over := (aws_keywords_v2.filter
    (fun kw => containsSub t2 (pyLower kw) && containsSub t1 (pyLower kw))).length
  if total = 0 then 0 else (over : ℚ) / (total : ℚ)

/-- Per-option similarity inside `V2AnswerParser.calculate_text_similarity`
(lines 460-492): keyword-overlap ratio when the option mentions AWS
keywords, else `SequenceMatcher.ratio` of the lower-cased texts. -/
def optionSimilarity (raw_lower : Str) (option_text : Str) : ℚ :=
  let opt := pyLower option_text
  let total := (aws_keywords_v2.filter
    (fun kw => containsSub opt (pyLower kw))).length
  let matched := (aws_keywords_v2.filter
    (fun kw => containsSub opt (pyLower kw) && containsSub raw_lower (pyLower kw))).length
  if 0 < total then (matched : ℚ) / (total : ℚ) else smRatioQ raw_lower opt

/-- `V2AnswerParser.calculate_text_similarity` (lines 460-492): average of
the per-option similarities, 0 for an empty selection. -/
def calculate_text_similarity (raw_answer : Str) (selected : List Str) : ℚ :=
  if selected.isEmpty then 0
  else ((selected.map (optionSimilarity (pyLower raw_answer))).sum) /
    (selected.length : ℚ)

/-- One fuzzy-matching candidate of `fuzzy_match_answer_text`. -/
structure FuzzyMatch where
  index : Nat
  similarity : ℚ
deriving DecidableEq, Repr

/-- The candidate collection loop of `V2AnswerParser.fuzzy_match_answer_text`
(lines 494-521): every option scoring
`ratio + 0.2 * keyword_overlap > 0.4`. -/
def fuzzy_candidates (answer_text : Str) (options : List (Str × Str)) :
    List FuzzyMatch :=
  options.enum.filterMap (fun p =>
    let sim := smRatioQ (pyLower answer_text) (pyLower p.2.2)
    let bonus := calculate_keyword_overlap answer_text p.2.2
    let finalSim := sim + bonus * (2/10)
    if (4/10 : ℚ) < finalSim then some ⟨p.1, finalSim⟩ else none)

/-- The comparison `fuzzy_match_answer_text` sorts by:
`sort(key=similarity, reverse=True)`, a stable descending sort. -/
def fuzzyGE (x y : FuzzyMatch) : Bool := decide (y.similarity ≤ x.similarity)

/-- `V2AnswerParser.fuzzy_match_answer_text` (lines 494-539): sort the
candidates by descending similarity and return the single best one as a
`fuzzy_text_match` result, or a `no_match_found` result with confidence 0. -/
def fuzzy_match_answer_text (answer_text : Str) (options : List (Str × Str)) :
    MappingResult :=
  let best_matches := (fuzzy_candidates answer_text options).mergeSort fuzzyGE
  match best_matches with
  | best :: _ =>
    { correct_answers := [best.index]
      validation_confidence := best.similarity
      mapping_issues :=
        ["Used fuzzy matching, confidence: " ++ formatQ3 best.similarity]
      mapping_method := "fuzzy_text_match" }
  | [] =>
    { correct_answers := []
      validation_confidence := 0
      mapping_issues := ["No fuzzy match found"]
      mapping_method := "no_match_found" }

/-- The issue message for an out-of-bounds mapped index. -/
def oob_issue (idx n : Nat) : String :=
  "Index " ++ toString idx ++ " exceeds option count " ++ toString n

/-- The low-similarity issue message of `validate_answer_mapping`. -/
def low_sim_issue : String :=
  "Low similarity between extracted answer and selected options"

/-- Result record of `validate_answer_mapping`. -/
structure ValidationResult where
  confidence : ℚ
  issues : List String
  validation_method : String
deriving DecidableEq, Repr

/-- `V2AnswerParser.validate_answer_mapping` (lines 423-458): flag every
index at or beyond the option count (confidence times 0.3 per occurrence),
then multiply by the text similarity of the in-range selections, flagging
low similarity. -/
def validate_answer_mapping (indices : List Nat) (options : List (Str × Str))
    (raw_answer : Str) : ValidationResult :=
  let n := options.length
  let st := indices.foldl
    (fun (st : List String × ℚ) idx =>
      if n ≤ idx then (st.1 ++ [oob_issue idx n], st.2 * (3/10)) else st)
    ([], 1)
  let valid_indices := indices.filter (fun idx => decide (idx < n))
  let final :=
    if valid_indices.isEmpty then st
    else
      let selected := valid_indices.map (fun i => (options.getD i ([], [])).2)
      let sim := calculate_text_similarity raw_answer selected
      ((if sim < 1/2 then st.1 ++ [low_sim_issue] else st.1), st.2 * sim)
  { confidence := final.2
    issues := final.1
    validation_method :=
      if indices.isEmpty then "failed_extraction" else "letter_mapping" }

/-- `V2AnswerParser.process_extracted_answer` (lines 365-404): extract the
answer letters; with letters, map each to `ord(letter) - ord('A')` and
validate; with none, fall back to fuzzy matching.  The `method` argument is
carried by the source only for statistics. -/
def process_extracted_answer (answer_text : Str) (options : List (Str × Str))
    (_method : String) : MappingResult :=
  let letters := extract_answer_letters answer_text
  if letters.isEmpty then fuzzy_match_answer_text answer_text options
  else
    let indices := letters.map (fun letter => (pyUpperChar letter).toNat - 'A'.toNat)
    let validation := validate_answer_mapping indices options answer_text
    { correct_answers := indices
      validation_confidence := validation.confidence
      mapping_issues := validation.issues
      mapping_method := validation.validation_method }

/-! ## More Python string helpers (structural-recursion formulations) -/

/-- `dropWhile` never lengthens a list (termination helper). -/
def dropWhileLenLe {α : Type} (p : α → Bool) :
    (l : List α) → ((l.dropWhile p).length ≤ l.length)
  | [] => le_refl _
  | a :: t => by
    by_cases h : p a
    · simp only [List.dropWhile, h]
      exact le_trans (dropWhileLenLe p t) (Nat.le_succ _)
    · simp [List.dropWhile, h]

/-- Python `str.replace(pat, repl)`: non-overlapping left-to-right
replacement of every occurrence (case-sensitive).  Structured on a fuel
argument so the definition reduces in the kernel; every step consumes at
least one character of `s`, so the wrapper's fuel `s.length` is always
enough. -/
def replaceAllF (pat repl : Str) : Nat → Str → Str
  | 0, s => s
  | fuel + 1, s =>
    match s with
    | [] => []
    | c :: rest =>
      if ¬pat.isEmpty ∧ headMatches pat (c :: rest) then
        repl ++ replaceAllF pat repl fuel ((c :: rest).drop pat.length)
      else c :: replaceAllF pat repl fuel rest

/-- Python `str.replace(pat, repl)`. -/
def replaceAll (pat repl : Str) (s : Str) : Str :=
  replaceAllF pat repl s.length s

/-- `re.sub(r'\s+', ' ', text)`: collapse every whitespace run to one
space.  `prevSpace` records whether the previous character was part of a
run (state-machine formulation of the run collapse). -/
def wsCollapseGo (prevSpace : Bool) : Str → Str
  | [] => []
  | c :: rest =>
    if pyIsSpace c then
      if prevSpace then wsCollapseGo true rest
      else ' ' :: wsCollapseGo true rest
    else c :: wsCollapseGo false rest

/-- `re.sub(r'\s+', ' ', text)`. -/
def wsCollapse (s : Str) : Str := wsCollapseGo false s

/-- `re.sub(r'[ \t]+', ' ', text)` state machine (spaces and tabs only). -/
def spaceTabCollapseGo (prevST : Bool) : Str → Str
  | [] => []
  | c :: rest =>
    if c == ' ' || c == '\t' then
      if prevST then spaceTabCollapseGo true rest
      else ' ' :: spaceTabCollapseGo true rest
    else c :: spaceTabCollapseGo false rest

/-- `re.sub(r'[ \t]+', ' ', text)`. -/
def spaceTabCollapse (s : Str) : Str := spaceTabCollapseGo false s

/-- Does the piece built so far (held reversed) end in one of the stop
characters?  Helper for the sentence-split lookbehind. -/
def headIsStop (stops : List Char) (cur : Str) : Bool :=
  match cur with
  | p :: _ => stops.contains p
  | [] => false

/-- `re.split(r'(?<=[.!?])\s+', text)` (and the `[.!]` variant): split at
every whitespace run preceded by a stop character.  `cur` is the current
piece, reversed; `consuming` is true while inside a separator run. -/
def splitAfterGo (stops : List Char) (cur : Str) (consuming : Bool) :
    Str → List Str
  | [] => if consuming then [[]] else [cur.reverse]
  | c :: rest =>
    if consuming then
      if pyIsSpace c then splitAfterGo stops cur true rest
      else splitAfterGo stops [c] false rest
    else
      if pyIsSpace c && headIsStop stops cur then
        cur.reverse :: splitAfterGo stops [] true rest
      else splitAfterGo stops (c :: cur) false rest

/-- `re.split` with a lookbehind on `stops` (see `splitAfterGo`). -/
def splitAfter (stops : List Char) (s : Str) : List Str :=
  splitAfterGo stops [] false s

/-! ## src/tools/v2_aggressive_parser.py — aggressive recovery -/

/-- `V2AggressiveParser.aws_keywords` (v2_aggressive_parser.py lines
90-98).  The source holds these in a `set`; only sums and counts over it
are ever taken, so the list order is immaterial. -/
def aws_keywords_ag : List Str :=
  [strL "S3", strL "EC2", strL "VPC", strL "RDS", strL "Lambda",
   strL "CloudWatch", strL "IAM", strL "EBS", strL "ELB",
   strL "Auto Scaling", strL "CloudFormation", strL "Route 53",
   strL "CloudFront", strL "SQS", strL "SNS",
   strL "DynamoDB", strL "Kinesis", strL "API Gateway", strL "ElastiCache",
   strL "ECS", strL "EKS",
   strL "Elastic Beanstalk", strL "Systems Manager", strL "Secrets Manager",
   strL "WAF",
   strL "Direct Connect", strL "Transit Gateway", strL "NAT Gateway",
   strL "Internet Gateway",
   strL "Config", strL "Trusted Advisor", strL "Inspector", strL "GuardDuty",
   strL "Macie", strL "KMS",
   strL "Certificate Manager", strL "Directory Service", strL "SSO",
   strL "Organizations"]

/-- `V2AggressiveParser.action_keywords` (lines 101-105), all lowercase. -/
def action_keywords_ag : List Str :=
  [strL "create", strL "configure", strL "setup", strL "enable",
   strL "deploy", strL "implement", strL "use",
   strL "add", strL "remove", strL "migrate", strL "scale", strL "monitor",
   strL "secure", strL "backup",
   strL "restore", strL "optimize", strL "troubleshoot", strL "analyze",
   strL "evaluate"]

/-- One `findall` result of an aggressive pattern: a `(letter, text)` tuple
for the two-group patterns, a plain string for the one-group patterns. -/
inductive AggMatch where
  | tup (letter text : Str)
  | single (text : Str)
deriving DecidableEq, Repr

/-- An aggressive answer candidate (the dict built by
`process_aggressive_match` / the inference functions). -/
structure AggCandidate where
  raw_text : Str
  clean_text : Str
  explanation : Str
  issues : List String
deriving DecidableEq, Repr

/-- The character class `[.\):;\-\s]` that may follow a stripped letter in
`clean_answer_text`. -/
def isLetterSepAg (c : Char) : Bool :=
  c == '.' || c == ')' || c == ':' || c == ';' || c == '-' || pyIsSpace c

/-- The character class `[.\):\s]` that may follow `Option X`. -/
def isOptSep (c : Char) : Bool :=
  c == '.' || c == ')' || c == ':' || pyIsSpace c

/-- `re.sub(r'^[A-E][.\):;\-\s]*', '', text)` (case-sensitive, anchored at
the start of the string). -/
def stripLetterPre (text : Str) : Str :=
  match text with
  | c :: rest => if isLetterAE c then rest.dropWhile isLetterSepAg else text
  | [] => []

/-- `re.sub(r'^Option\s+[A-E][.\):\s]*', '', text, flags=re.IGNORECASE)`. -/
def stripOptionPre (text : Str) : Str :=
  if headMatches (strL "option") (pyLower text) then
    let afterWord := text.drop 6
    let ws := afterWord.takeWhile pyIsSpace
    if ws.isEmpty then text
    else
      match afterWord.dropWhile pyIsSpace with
      | c :: rest2 =>
        if isLetterAE (pyUpperChar c) then rest2.dropWhile isOptSep else text
      | [] => text
  else text

/-- `V2AggressiveParser.clean_answer_text` (lines 511-528): strip letter
prefixes, collapse whitespace, and keep the first one or two sentences
(or the first 300 characters when the first sentence is short). -/
def clean_answer_text_ag (text0 : Str) : Str :=
  let text1 := stripLetterPre text0
  let text2 := stripOptionPre text1
  let text := pyStrip (wsCollapse text2)
  let sentences := splitAfter ['.', '!', '?'] text
  match sentences with
  | [] => text.take 300
  | s0 :: restS =>
    if 15 < s0.length then
      match restS with
      | s1 :: _ => if s0.length < 100 then s0 ++ ' ' :: s1 else s0
      | [] => s0
    else text.take 300

/-- The five two-group letter patterns of the aggressive cascade. -/
def letterPatternNames : List String :=
  ["letter_flexible", "action_based", "aws_service_based", "sentence_based",
   "line_extraction"]

/-- `V2AggressiveParser.process_aggressive_match` (lines 362-390): build
`raw_text`/`answer_text` from the match shape, clean the text, and reject
candidates whose cleaned text is shorter than 10 or longer than 1000
characters.  (The one-group patterns only ever produce `single` matches in
the source; the `tup` case under a one-group pattern is unreachable and
mapped to the concatenation for totality.) -/
def process_aggressive_match (m : AggMatch) (pattern_name : String) :
    Option AggCandidate :=
  let p : Str × Str :=
    if letterPatternNames.contains pattern_name then
      match m with
      | .tup letter text =>
        (pyStrip letter ++ strL ". " ++ pyStrip text, pyStrip text)
      | .single t => (pyStrip t, pyStrip t)
    else
      match m with
      | .tup letter text => (pyStrip (letter ++ text), pyStrip (letter ++ text))
      | .single t => (pyStrip t, pyStrip t)
  let clean_text := clean_answer_text_ag p.2
  if clean_text.length < 10 || 1000 < clean_text.length then none
  else some
    { raw_text := p.1
      clean_text := clean_text
      explanation := clean_text
      issues := [] }

/-- The per-method reliability bonus of
`V2AggressiveParser.calculate_aggressive_confidence` (lines 536-549). -/
def method_bonus (method : String) : ℚ :=
  if method = "letter_flexible" then 3/10
  else if method = "action_based" then 1/4
  else if method = "aws_service_based" then 1/5
  else if method = "sentence_based" then 3/20
  else if method = "line_extraction" then 1/10
  else if method = "standalone_action" then 1/5
  else if method = "aws_heavy_heuristic" then 1/10
  else if method = "answer_indicator" then 3/20
  else if method = "option_context" then 1/10
  else if method = "context_inference" then 3/20
  else if method = "keyword_inference" then 1/20
  else 0

/-- A question option as the aggressive recoverer sees it
(a dict accessed through `option.get('text', '')`). -/
structure AgOption where
  text : Str
deriving DecidableEq, Repr

/-- `V2AggressiveParser.calculate_aggressive_confidence` (lines 530-581):
base 0.2, method bonus, length bonus, capped AWS-keyword and action-word
bonuses, capped question-overlap bonus, degenerate-length penalties, and a
final clamp `min(max(c, 0.1), 1.0)`. -/
def calculate_aggressive_confidence (answer_data : AggCandidate)
    (_context : Str) (method : String) (question_text : Str)
    (_options : List AgOption) : ℚ :=
  let confidence := (1/5 : ℚ) + method_bonus method
  let answer_text := answer_data.clean_text
  let confidence := confidence +
    (if 20 ≤ answer_text.length ∧ answer_text.length ≤ 200 then 1/5
     else if 15 ≤ answer_text.length ∧ answer_text.length ≤ 300 then 1/10
     else 0)
  let aws_count := (aws_keywords_ag.filter
    (fun kw => containsSub (pyLower answer_text) (pyLower kw))).length
  let confidence := confidence + min ((aws_count : ℚ) * (1/20)) (3/20)
  let action_count := (action_keywords_ag.filter
    (fun w => containsSub (pyLower answer_text) w)).length
  let confidence := confidence + min ((action_count : ℚ) * (3/100)) (1/10)
  let confidence := confidence +
    (if question_text.isEmpty then 0
     else
       let qWords := (pySplitWs (pyLower question_text)).dedup
       let aWords := pySplitWs (pyLower answer_text)
       let overlap := (qWords.filter (fun w => aWords.contains w)).length
       min ((overlap : ℚ) * (1/50)) (1/10))
  let confidence := confidence -
    (if answer_text.length < 15 then 1/5
     else if 500 < answer_text.length then 1/10
     else 0)
  min (max confidence (1/10)) 1

/-- The per-option score of `V2AggressiveParser.infer_from_context`
(lines 400-421): 2 per AWS keyword shared by option and context, 1 per
action keyword shared, and 1 per option word longer than 4 characters that
occurs in the context. -/
def context_option_score (option_text_l : Str) (context_l : Str) : Nat :=
  2 * (aws_keywords_ag.filter (fun kw =>
        containsSub option_text_l (pyLower kw) &&
        containsSub context_l (pyLower kw))).length +
  (action_keywords_ag.filter (fun a =>
        containsSub option_text_l a && containsSub context_l a)).length +
  ((pySplitWs option_text_l).filter (fun w =>
        decide (4 < w.length) && containsSub context_l w)).length

/-- `chr(ord('A') + i)`. -/
def letterOfIndex (i : Nat) : Char := Char.ofNat ('A'.toNat + i)

/-- The stable descending sort both inference functions use:
`option_scores.sort(key=lambda x: x[1], reverse=True)`. -/
def scoreGE (x y : Nat × Nat × AgOption) : Bool := decide (y.2.1 ≤ x.2.1)

/-- `V2AggressiveParser.infer_from_context` (lines 392-439): score every
option against the context, take the best, and return it as a candidate
(with the `context_inference` issue) when its score exceeds 1. -/
def infer_from_context (_question_text : Str) (options : List AgOption)
    (context : Str) : Option AggCandidate :=
  if options.isEmpty then none
  else
    let option_scores := options.enum.map (fun p =>
      (p.1, context_option_score (pyLower p.2.text) (pyLower context), p.2))
    let sortedScores := option_scores.mergeSort scoreGE
    match sortedScores with
    | [] => none
    | best :: _ =>
      if 1 < best.2.1 then
        some
          { raw_text := letterOfIndex best.1 :: strL ". " ++ best.2.2.text
            clean_text := best.2.2.text
            explanation := strL ("Inferred from context analysis (score: " ++
              toString best.2.1 ++ ")")
            issues := ["context_inference"] }
      else none

/-- The per-option score of `V2AggressiveParser.infer_from_keywords`
(lines 451-468): 1 per distinct word longer than 3 characters shared by
question and option, plus 2 per AWS keyword contained in the option. -/
def keyword_option_score (question_l : Str) (option_text_l : Str) : Nat :=
  let qWords := (pySplitWs question_l).dedup
  let oWords := pySplitWs option_text_l
  ((qWords.filter (fun w => oWords.contains w)).filter
    (fun w => decide (3 < w.length))).length +
  2 * (aws_keywords_ag.filter (fun kw =>
        containsSub option_text_l (pyLower kw))).length

/-- `V2AggressiveParser.infer_from_keywords` (lines 441-485): score each
option by shared vocabulary with the question, take the best, and return it
(with the `keyword_inference` issue) when its score is positive. -/
def infer_from_keywords (question_text : Str) (options : List AgOption)
    (_context : Str) : Option AggCandidate :=
  if options.isEmpty then none
  else
    let option_scores := options.enum.map (fun p =>
      (p.1, keyword_option_score (pyLower question_text) (pyLower p.2.text),
        p.2))
    let sortedScores := option_scores.mergeSort scoreGE
    match sortedScores with
    | [] => none
    | best :: _ =>
      if 0 < best.2.1 then
        some
          { raw_text := letterOfIndex best.1 :: strL ". " ++ best.2.2.text
            clean_text := best.2.2.text
            explanation := strL ("Inferred from keyword analysis (score: " ++
              toString best.2.1 ++ ")")
            issues := ["keyword_inference"] }
      else none

/-- Case-insensitive `headMatches` (for regex parts under `re.IGNORECASE`). -/
def headMatchesCI (pat t : Str) : Bool :=
  headMatches (pyLower pat) (pyLower t)

/-- A word character for the `\b` boundary: `[a-zA-Z0-9_]`. -/
def isWordChar (c : Char) : Bool :=
  ('a' ≤ pyLowerChar c && pyLowerChar c ≤ 'z') || pyIsDigit c || c == '_'

/-- Generic non-overlapping `re.findall` scanner.  `try1 prev t` attempts a
match at the head of `t` (with `prev` the character before, for `\b`) and
returns the captured letters together with the number of characters the
match consumed; on failure the scan advances one character.  Matches always
consume at least one character here, and `max n 1` makes that manifest for
termination. -/
def scanBF (try1 : Option Char → Str → Option (List Char × Nat)) :
    Nat → Option Char → Str → List Char
  | 0, _, _ => []
  | _ + 1, _, [] => []
  | fuel + 1, prev, c :: rest =>
    match try1 prev (c :: rest) with
    | some (ls, n) =>
      ls ++ scanBF try1 fuel
        (some ((c :: rest).getD (max n 1 - 1) (Char.ofNat 0)))
        ((c :: rest).drop (max n 1))
    | none => scanBF try1 fuel (some c) rest

/-- `scanBF` with fuel `s.length`, which is always enough: every step
consumes at least one character. -/
def scanB (try1 : Option Char → Str → Option (List Char × Nat))
    (prev : Option Char) (s : Str) : List Char :=
  scanBF try1 s.length prev s

/-- Pattern 1 of `V2AggressiveParser.extract_answer_letters`:
`^([A-E])(?:[.\)\:\s]|$)` with `re.IGNORECASE` — anchored at the start of
the string (`^` without `re.MULTILINE`). -/
def alpPat1 (t : Str) : List Char :=
  match t with
  | [] => []
  | c :: rest =>
    if isLetterAE (pyUpperChar c) then
      match rest with
      | [] => [c]
      | d :: _ =>
        if d == '.' || d == ')' || d == ':' || pyIsSpace d then [c] else []
    else []

/-- Patterns 2 and 3 of `extract_answer_letters`:
`(?:W1|W2|...)[\s:]*([A-E])(?:[.\)\:\s]|$)` under `re.IGNORECASE`.  The
alternatives start with distinct letters, so at most one can match at a
given position and the greedy `[\s:]*` run is forced. -/
def tryWordLetter (words : List Str) (_prev : Option Char) (t : Str) :
    Option (List Char × Nat) :=
  match words.find? (fun w => headMatchesCI w t) with
  | none => none
  | some w =>
    let after := t.drop w.length
    let run := after.takeWhile (fun c => pyIsSpace c || c == ':')
    match after.drop run.length with
    | [] => none
    | c :: rest3 =>
      if isLetterAE (pyUpperChar c) then
        match rest3 with
        | [] => some ([c], w.length + run.length + 1)
        | d :: _ =>
          if d == '.' || d == ')' || d == ':' || pyIsSpace d then
            some ([c], w.length + run.length + 2)
          else none
      else none

/-- Pattern 4 of `extract_answer_letters`: `\b([A-E])\s+is\s+correct`
under `re.IGNORECASE`. -/
def tryBoundIsCorrect (prev : Option Char) (t : Str) :
    Option (List Char × Nat) :=
  match t with
  | [] => none
  | c :: rest =>
    if isLetterAE (pyUpperChar c) &&
        (match prev with | none => true | some p => !isWordChar p) then
      let ws1 := rest.takeWhile pyIsSpace
      if ws1.isEmpty then none
      else
        let r1 := rest.drop ws1.length
        if headMatchesCI (strL "is") r1 then
          let r2 := r1.drop 2
          let ws2 := r2.takeWhile pyIsSpace
          if ws2.isEmpty then none
          else
            let r3 := r2.drop ws2.length
            if headMatchesCI (strL "correct") r3 then
              some ([c], 1 + ws1.length + 2 + ws2.length + 7)
            else none
        else none
    else none

/-- Pattern 5 of `extract_answer_letters`:
`([A-E])\s*[,\s]\s*([A-E])` under `re.IGNORECASE`.  After the first letter
the separator is a nonempty whitespace run, optionally containing one
comma; the greedy/backtracking behaviour of the source pattern reduces to
the two cases below. -/
def tryLetterPair (_prev : Option Char) (t : Str) :
    Option (List Char × Nat) :=
  match t with
  | [] => none
  | c :: rest =>
    if isLetterAE (pyUpperChar c) then
      let a := rest.takeWhile pyIsSpace
      match rest.drop a.length with
      | [] => none
      | d :: r2 =>
        if isLetterAE (pyUpperChar d) && !a.isEmpty then
          some ([c, d], 1 + a.length + 1)
        else if d == ',' then
          let b := r2.takeWhile pyIsSpace
          match r2.drop b.length with
          | [] => none
          | e :: _ =>
            if isLetterAE (pyUpperChar e) then
              some ([c, e], 1 + a.length + 1 + b.length + 1)
            else none
        else none
    else none

/-- `V2AggressiveParser.extract_answer_letters` (lines 487-509): union the
upper-cased captures of the five patterns (a Python `set`), sort, filter to
`A`-`E`, and keep at most three. -/
def extract_answer_letters_ag (text : Str) : List Char :=
  let l1 := alpPat1 text
  let l2 := scanB (tryWordLetter
    [strL "Answer", strL "Solution", strL "Correct"]) none text
  let l3 := scanB (tryWordLetter [strL "Option", strL "Choice"]) none text
  let l4 := scanB tryBoundIsCorrect none text
  let l5 := scanB tryLetterPair none text
  let letters := ((l1 ++ l2 ++ l3 ++ l4 ++ l5).map pyUpperChar).dedup
  let sortedLetters := letters.mergeSort (fun a b => decide (a ≤ b))
  (sortedLetters.filter (fun l => 'A' ≤ l && l ≤ 'E')).take 3

/-- `str.title()` for the single-word action keywords. -/
def titleCase (w : Str) : Str :=
  match w with
  | [] => []
  | c :: r => pyUpperChar c :: r

/-- `V2AggressiveParser.extract_keywords` (lines 583-598): AWS keywords
contained in the text, then title-cased action keywords, at most ten. -/
def extract_keywords_ag (text : Str) : List String :=
  let tl := pyLower text
  ((aws_keywords_ag.filter (fun kw => containsSub tl (pyLower kw))).map
      (fun kw => String.mk kw) ++
    ((action_keywords_ag.filter (fun a => containsSub tl a)).map
      (fun a => String.mk (titleCase a)))).take 10

/-- The question data `extract_answer_aggressively` receives (one entry of
the enhanced-results answer list). -/
structure QuestionDataAg where
  question_id : String
  question_number : Nat
  question_text : Str
  options : List AgOption
deriving DecidableEq, Repr

/-- The answer record `extract_answer_aggressively` emits. -/
structure AggAnswer where
  question_id : String
  question_number : Nat
  raw_answer_text : Str
  extraction_method : String
  correct_answers : List Nat
  validation_confidence : ℚ
  mapping_issues : List String
  mapping_method : String
  explanation : Str
  keywords : List String
  requires_manual_review : Bool
  aggressive_extraction : Bool
  parsing_confidence : ℚ
deriving DecidableEq, Repr

/-- The running best candidate of `extract_answer_aggressively`
(`best_answer`, `best_confidence`, `best_method`). -/
structure BestState where
  answer : Option AggCandidate
  conf : ℚ
  method : Option String
deriving DecidableEq, Repr

/-- Method 1 of `V2AggressiveParser.extract_answer_aggressively` (lines
271-288): run every pattern's matches through `process_aggressive_match`
and `calculate_aggressive_confidence`, keeping the strictly best-scoring
candidate (ties keep the earlier pattern/match).  The `findall` results per
pattern are taken as an argument: the regex engine's output on the question
context is the input of this phase. -/
def aggPatternPhase (ctx : Str) (question_text : Str)
    (options : List AgOption)
    (patternResults : List (String × List AggMatch)) : BestState :=
  patternResults.foldl (fun best pr =>
    pr.2.foldl (fun best m =>
      match process_aggressive_match m pr.1 with
      | none => best
      | some cand =>
        let confidence :=
          calculate_aggressive_confidence cand ctx pr.1 question_text options
        if best.conf < confidence then ⟨some cand, confidence, some pr.1⟩
        else best) best)
    ⟨none, 0, none⟩

/-- The record-building tail of `extract_answer_aggressively` (lines
312-339): accept the best candidate when its confidence is at least 0.2,
extract answer letters from its raw text (returning nothing when none are
found), and map them to indices.  All aggressive extractions are flagged
`requires_manual_review`. -/
def finalizeAggBest (qd : QuestionDataAg) (best : BestState) :
    Option AggAnswer :=
  match best.answer with
  | none => none
  | some cand =>
    if (1/5 : ℚ) ≤ best.conf then
      match extract_answer_letters_ag cand.raw_text with
      | [] => none
      | l :: ls =>
        let answer_letters := l :: ls
        let correct_answers := (answer_letters.filter (fun c =>
          'A' ≤ pyUpperChar c && pyUpperChar c ≤ 'E')).map
          (fun c => (pyUpperChar c).toNat - 'A'.toNat)
        some
          { question_id := qd.question_id
            question_number := qd.question_number
            raw_answer_text := cand.raw_text
            extraction_method := best.method.getD ""
            correct_answers := correct_answers
            validation_confidence := best.conf
            mapping_issues := cand.issues
            mapping_method := "aggressive_extraction"
            explanation := cand.explanation
            keywords := extract_keywords_ag (cand.raw_text ++ ' ' :: cand.explanation)
            requires_manual_review := true
            aggressive_extraction := true
            parsing_confidence := best.conf }
    else none

/-- The staged best of `V2AggressiveParser.extract_answer_aggressively`
(lines 252-339) after method 1 (the pattern cascade, lines 271-288).
The question context (`find_question_context` over the PDF text) and the
per-pattern `findall` results are parameters: regex search over the raw
document is the boundary of this embedding, while all selection logic,
scoring, inference and record construction are embedded from the source. -/
def aggBest1 (qd : QuestionDataAg) (question_context : Str)
    (patternResults : List (String × List AggMatch)) : BestState :=
  aggPatternPhase question_context qd.question_text qd.options patternResults

/-- The state after method 2 (context inference, lines 291-300): it runs
only when no pattern candidate exists or the best confidence is below 0.4,
and replaces the best only when its fixed confidence 0.35 is strictly
greater. -/
def aggBest2 (qd : QuestionDataAg) (question_context : Str)
    (patternResults : List (String × List AggMatch)) : BestState :=
  let best1 := aggBest1 qd question_context patternResults
  if best1.answer.isNone || best1.conf < 2/5 then
    match infer_from_context qd.question_text qd.options question_context with
    | some inferred =>
      if best1.conf < 7/20 then ⟨some inferred, 7/20, some "context_inference"⟩
      else best1
    | none => best1
  else best1

/-- The state after method 3 (keyword inference, lines 302-311): it runs
only when the best so far is absent or below 0.3, and replaces it only when
its fixed confidence 0.25 is strictly greater. -/
def aggBest3 (qd : QuestionDataAg) (question_context : Str)
    (patternResults : List (String × List AggMatch)) : BestState :=
  let best2 := aggBest2 qd question_context patternResults
  if best2.answer.isNone || best2.conf < 3/10 then
    match infer_from_keywords qd.question_text qd.options question_context with
    | some kw =>
      if best2.conf < 1/4 then ⟨some kw, 1/4, some "keyword_inference"⟩
      else best2
    | none => best2
  else best2

def extract_answer_aggressively (qd : QuestionDataAg)
    (question_context : Str)
    (patternResults : List (String × List AggMatch)) : Option AggAnswer :=
  if question_context.isEmpty then none
  else finalizeAggBest qd (aggBest3 qd question_context patternResults)

/-! ## src/tools/answer_parser.py — segmentation (and
src/tools/aggressive_parser.py — `extract_segments`) -/

/-- One `finditer` match of the question delimiter `(\d+)\]`: its start
position and the digit group. -/
structure DelimMatch where
  start : Nat
  numStr : Str
deriving DecidableEq, Repr

/-- Python `int` on a digit string. -/
def digitsToNat (ds : Str) : Nat :=
  ds.foldl (fun n c => n * 10 + (c.toNat - '0'.toNat)) 0

/-- The scan of `re.finditer(r'(\d+)\]', content)`, as a one-pass state
machine: a match of the pattern is a nonempty maximal digit run followed
by `]` (backtracking a greedy `\d+` into the run can never reach a `]`,
and a match attempted at an inner suffix of a run fails for the same
reason, so tracking the pending digit run while scanning left to right
yields exactly the `finditer` matches, with scanning resuming after each
`]`).  `pending` holds the digits read so far, most recent first. -/
def findDelimsGo (pending : Str) (pos : Nat) : Str → List DelimMatch
  | [] => []
  | c :: rest =>
    if pyIsDigit c then findDelimsGo (c :: pending) (pos + 1) rest
    else if c == ']' && !pending.isEmpty then
      ⟨pos - pending.length, pending.reverse⟩ ::
        findDelimsGo [] (pos + 1) rest
    else findDelimsGo [] (pos + 1) rest

/-- All matches of the question delimiter `(\d+)\]` in document order
(`AnswerParser.question_delimiter`, answer_parser.py line 30). -/
def question_delimiter_matches (content : Str) : List DelimMatch :=
  findDelimsGo [] 0 content

/-- A question segment (`{'number': ..., 'content': ...}`). -/
structure Segment where
  number : Nat
  content : Str
deriving DecidableEq, Repr

/-- The loop of `AnswerParser.segment_by_questions` (lines 149-166): each
match's span runs from its start to the next match's start (end of document
for the last); the stripped span is kept only when longer than 50
characters. -/
def segLoop (content : Str) : List DelimMatch → List Segment
  | [] => []
  | m :: rest =>
    let end_pos :=
      match rest with
      | [] => content.length
      | m2 :: _ => m2.start
    let segment_content := pyStrip ((content.drop m.start).take (end_pos - m.start))
    (if 50 < segment_content.length then
      [⟨digitsToNat m.numStr, segment_content⟩] else []) ++ segLoop content rest

/-- `AnswerParser.segment_by_questions` (answer_parser.py lines 134-168). -/
def segment_by_questions (content : Str) : List Segment :=
  segLoop content (question_delimiter_matches content)

/-- The loop of `AggressiveParser.extract_segments` (aggressive_parser.py
lines 204-222): same spans, but stored in a dict keyed by the question
number (`segments[question_num] = segment_content`), with no length
filter — a duplicated number keeps only the last span. -/
def extractSegLoop (content : Str) :
    List DelimMatch → List (Nat × Str) → List (Nat × Str)
  | [], d => d
  | m :: rest, d =>
    let end_pos :=
      match rest with
      | [] => content.length
      | m2 :: _ => m2.start
    let seg := pyStrip ((content.drop m.start).take (end_pos - m.start))
    extractSegLoop content rest (dictInsert d (digitsToNat m.numStr) seg)

/-- `AggressiveParser.extract_segments` (aggressive_parser.py 204-222). -/
def extract_segments (content : Str) : List (Nat × Str) :=
  extractSegLoop content (question_delimiter_matches content) []

/-- Specification view of the delimiter spans: the matches zipped with the
next match's start (end of document for the last), each span taken verbatim
from the document.  Used to state the segmentation theorems. -/
def delimSpans (content : Str) : List (Nat × Str) :=
  let ms := question_delimiter_matches content
  let nexts := (ms.map (fun m => m.start)).tail ++ [content.length]
  (ms.zip nexts).map (fun p =>
    (digitsToNat p.1.numStr, (content.drop p.1.start).take (p.2 - p.1.start)))

/-! ## src/tools/answer_parser.py — segment cleaning and answer extraction -/

/-- Is the buffered whitespace run fit for `\n\s*\n` resolution?  Helper of
`blankLineCollapse`: resolve a buffered run (held reversed) that followed a
`\n`.  If the run contains a `\n`, the source match `\n\s*\n` (greedy, so
ending at the run's last `\n`) is replaced by `\n\n` and the remainder of
the run is kept; otherwise the text is kept verbatim. -/
def resolveRun (run : Str) : Str :=
  match run.findIdx? (fun c => c == '\n') with
  | some j => '\n' :: '\n' :: (run.take j).reverse
  | none => '\n' :: run.reverse

/-- State machine for `re.sub(r'\n\s*\n', '\n\n', content)`: outside a run,
copy characters and start buffering at `\n`; inside, buffer whitespace and
resolve at the first non-whitespace character or at the end. -/
def blcGo : Option Str → Str → Str
  | none, [] => []
  | some run, [] => resolveRun run
  | none, c :: rest =>
    if c == '\n' then blcGo (some []) rest else c :: blcGo none rest
  | some run, c :: rest =>
    if pyIsSpace c then blcGo (some (c :: run)) rest
    else resolveRun run ++ c :: blcGo none rest

/-- `re.sub(r'\n\s*\n', '\n\n', content)`. -/
def blankLineCollapse (s : Str) : Str := blcGo none s

/-- `AnswerParser.clean_segment_content` (answer_parser.py lines 232-246). -/
def clean_segment_content (content : Str) : Str :=
  let c1 := replaceAll (strL "\x00") (strL " ") content
  let c2 := replaceAll [Char.ofNat 0xfeff] [] c1
  let c3 := replaceAll (strL "\x0d\n") (strL "\n") c2
  let c4 := replaceAll (strL "\x0d") (strL "\n") c3
  let c5 := spaceTabCollapse c4
  let c6 := blankLineCollapse c5
  pyStrip c6

/-- An ASCII letter (what `[A-Z]` matches under `re.IGNORECASE`). -/
def isAsciiAlpha (c : Char) : Bool :=
  'a' ≤ pyLowerChar c && pyLowerChar c ≤ 'z'

/-- The break test of `AnswerParser.extract_question_preview` (lines
259-264): answer markers end the question preview. -/
def previewBreakLine (line : Str) : Bool :=
  headMatches (strL "ans-") (pyLower line) ||
  (match line with
   | c :: d :: rest2 =>
     isLetterAE c &&
       (pyIsSpace d ||
        (d == '.' && (match rest2 with | e :: _ => pyIsSpace e | [] => false)))
   | _ => false) ||
  containsSub line (strL "---") ||
  headMatches (strL "correct") (pyLower line) ||
  headMatches (strL "option") (pyLower line)

/-- The line loop of `extract_question_preview`: skip blank lines, stop at
the first answer marker, collect the rest. -/
def previewLoop : List Str → List Str
  | [] => []
  | l :: rest =>
    let line := pyStrip l
    if line.isEmpty then previewLoop rest
    else if previewBreakLine line then []
    else line :: previewLoop rest

/-- `re.sub(r'^\d+\]\s*', '', preview)`. -/
def stripLeadNumBracket (preview : Str) : Str :=
  let ds := preview.takeWhile pyIsDigit
  if ds.isEmpty then preview
  else
    match preview.drop ds.length with
    | ']' :: rest => rest.dropWhile pyIsSpace
    | _ => preview

/-- `AnswerParser.extract_question_preview` (lines 248-278). -/
def extract_question_preview (content : Str) : Str :=
  let question_lines := previewLoop (pySplitChar content '\n')
  let preview := List.intercalate (strL " ") question_lines
  let preview := stripLeadNumBracket preview
  let preview :=
    if 300 < preview.length then preview.take 300 ++ strL "..." else preview
  pyStrip preview

/-- One regex match of an answer-format pattern: start position, length of
group 1 (what `calculate_match_confidence` measures) and the raw text the
answer is read from (group 1 for `ans_format`, group 2 for the letter
formats). -/
structure FmtMatch where
  start : Nat
  group1len : Nat
  answer_raw : Str
deriving DecidableEq, Repr

/-- Lazy `(.+?)` capture: at least one character, stopping as soon as the
lookahead holds at the remaining suffix. -/
def lazyTakeUntil (look : Str → Bool) : Str → Str
  | [] => []
  | c :: rest => if look rest then [c] else c :: lazyTakeUntil look rest

/-- The lookahead `(?=\n\n|\n[A-Z]|$)` of the `ans_format` pattern
(`re.IGNORECASE`, no `re.MULTILINE`, so `$` is the end of the string and
`[A-Z]` matches any ASCII letter). -/
def ansLookahead (u : Str) : Bool :=
  match u with
  | [] => true
  | '\n' :: d :: _ => d == '\n' || isAsciiAlpha d
  | _ :: _ => false

/-- The lookahead `(?=\n\n|$)` under `re.MULTILINE`: `$` matches at the end
of the string and before every `\n`, so the alternatives collapse to
"end or newline next". -/
def nlLookahead (u : Str) : Bool :=
  match u with
  | [] => true
  | '\n' :: _ => true
  | _ :: _ => false

/-- `re.search` of pattern 1, `ans-\s*(.+?)(?=\n\n|\n[A-Z]|$)` with
`re.DOTALL | re.IGNORECASE` (answer_parser.py line 37): the first `ans-`
occurrence with at least one character after it; the greedy `\s*` backs off
one character when it would swallow the rest of the string. -/
def ansFormatGo (pos : Nat) : Str → Option FmtMatch
  | [] => none
  | c :: rest =>
    if headMatchesCI (strL "ans-") (c :: rest) && 4 < rest.length + 1 then
      let after := (c :: rest).drop 4
      let wmax := (after.takeWhile pyIsSpace).length
      let w := min wmax (after.length - 1)
      let g := lazyTakeUntil ansLookahead (after.drop w)
      some ⟨pos, g.length, g⟩
    else ansFormatGo (pos + 1) rest

/-- Match attempt at a line start for pattern 2,
`^([A-E])\.\s*(.+?)(?=\n\n|$)` with `re.MULTILINE | re.DOTALL`
(line 43): group 1 is the single letter. -/
def letterFormatTry (pos : Nat) (t : Str) : Option FmtMatch :=
  match t with
  | c :: '.' :: rest2 =>
    if isLetterAE c then
      if rest2.isEmpty then none
      else
        let wmax := (rest2.takeWhile pyIsSpace).length
        let w := min wmax (rest2.length - 1)
        let g := lazyTakeUntil nlLookahead (rest2.drop w)
        some ⟨pos, 1, g⟩
    else none
  | _ => none

/-- Match attempt at a line start for pattern 3,
`^([A-E])\s+(.+?)(?=\n\n|$)` with `re.MULTILINE | re.DOTALL` (line 49). -/
def hybridFormatTry (pos : Nat) (t : Str) : Option FmtMatch :=
  match t with
  | [] => none
  | c :: rest =>
    if isLetterAE c then
      let wmax := (rest.takeWhile pyIsSpace).length
      if wmax = 0 || rest.length < 2 then none
      else
        let w := min wmax (rest.length - 1)
        let g := lazyTakeUntil nlLookahead (rest.drop w)
        some ⟨pos, 1, g⟩
    else none

/-- `re.search` scan for a `^`-anchored `re.MULTILINE` pattern: try the
match at position 0 and after every newline, left to right. -/
def scanLS (try1 : Nat → Str → Option FmtMatch) :
    Nat → Bool → Str → Option FmtMatch
  | _, _, [] => none
  | pos, atLS, c :: rest =>
    match (if atLS then try1 pos (c :: rest) else none) with
    | some m => some m
    | none => scanLS try1 (pos + 1) (c == '\n') rest

/-- A successful answer-format extraction
(`{'answer_text', 'format', 'match_confidence'}`). -/
structure AnswerFmt where
  answer_text : Str
  format : String
  match_confidence : ℚ
deriving DecidableEq, Repr

/-- `AnswerParser.calculate_match_confidence` (lines 367-385): base 0.5,
early-position bonus, group-1 length bonus and over-length penalty, capped
at 1. -/
def calculate_match_confidence (m : FmtMatch) (content : Str) : ℚ :=
  let score := (1/2 : ℚ)
  let match_pos := (m.start : ℚ) / (content.length : ℚ)
  let score := if match_pos < 3/10 then score + 1/5 else score
  let score :=
    if 20 ≤ m.group1len ∧ m.group1len ≤ 200 then score + 1/5 else score
  let score := if 500 < m.group1len then score - 3/10 else score
  min score 1

/-- `[-=]` for the separator-artifact patterns. -/
def isDashEq (c : Char) : Bool := c == '-' || c == '='

/-- Does the text start with three separator characters (`[-=]{3,}` can
match here)? -/
def dashRun3 (s : Str) : Bool :=
  match s with
  | a :: b :: c :: _ => isDashEq a && isDashEq b && isDashEq c
  | _ => false

/-- `re.sub(r'[-=]{3,}.*$', '', text, flags=re.MULTILINE)`: from every run
of three or more `-`/`=`, delete through the end of that line. -/
def dashRunCutF : Nat → Str → Str
  | 0, s => s
  | fuel + 1, s =>
    match s with
    | [] => []
    | c :: rest =>
      if dashRun3 (c :: rest) then
        dashRunCutF fuel (rest.dropWhile (fun x => !(x == '\n')))
      else c :: dashRunCutF fuel rest

/-- `dashRunCutF` with fuel `s.length` (always enough: each step consumes
at least one character). -/
def dashRunCut (s : Str) : Str := dashRunCutF s.length s

/-- `re.sub(r'\s*[.]{2,}$', '', text)`: drop two-or-more trailing dots and
the whitespace run before them. -/
def dotTailCut (text : Str) : Str :=
  let rev := text.reverse
  let dots := rev.takeWhile (fun c => c == '.')
  if 2 ≤ dots.length then ((rev.drop dots.length).dropWhile pyIsSpace).reverse
  else text

/-- Prefix before the first occurrence of `pat` (`text.split(pat)[0]`). -/
def cutAtSub (text pat : Str) : Str :=
  match findSub text pat with
  | some i => text.take i
  | none => text

/-- The explanation-starter phrases `clean_answer_text` cuts at
(answer_parser.py line 350). -/
def phrase_list_ap : List Str :=
  [strL " General line:", strL " Conditions:", strL " Task:",
   strL " Requirements:", strL " Correct answer", strL " because:",
   strL " provides", strL " allows"]

/-- `AnswerParser.clean_answer_text` (lines 319-354). -/
def clean_answer_text_ap (text0 : Str) : Str :=
  let text := wsCollapse text0
  let text := pyStrip (replaceAll (strL "ans-") [] text)
  let text :=
    if 200 < text.length then
      match splitAfter ['.', '!'] text with
      | [] => text
      | s0 :: restS =>
        let a2 :=
          match restS with
          | s1 :: _ => if s0.length < 100 then s0 ++ ' ' :: s1 else s0
          | [] => s0
        match restS with
        | _ :: s2 :: _ => if a2.length < 150 then a2 ++ ' ' :: s2 else a2
        | _ => a2
    else text
  let text := dashRunCut text
  let text := replaceAll (strL "\n") (strL " ") text
  let text := dotTailCut text
  let text := phrase_list_ap.foldl
    (fun t ph => if containsSub t ph then cutAtSub t ph else t) text
  pyStrip text

/-- `AnswerParser.validate_answer_text` (lines 356-365). -/
def validate_answer_text (text : Str) : Bool :=
  if text.isEmpty || (pyStrip text).length < 5 then false
  else if 5000 < text.length then false
  else true

/-- One iteration of `extract_answer_multiple_formats`' pattern loop:
given a pattern's search result, strip and clean the captured text and
accept it when it validates (otherwise the loop falls through to the next
pattern). -/
def tryFormat (content : Str) (mOpt : Option FmtMatch) (name : String) :
    Option AnswerFmt :=
  match mOpt with
  | none => none
  | some m =>
    let answer_text := pyStrip m.answer_raw
    let answer_text := clean_answer_text_ap answer_text
    if validate_answer_text answer_text then
      some ⟨answer_text, name, calculate_match_confidence m content⟩
    else none

/-- `AnswerParser.extract_answer_multiple_formats` (lines 280-317): the
three patterns in priority order, first validated match wins. -/
def extract_answer_multiple_formats (content : Str) : Option AnswerFmt :=
  match tryFormat content (ansFormatGo 0 content) "ans_format" with
  | some r => some r
  | none =>
    match tryFormat content (scanLS letterFormatTry 0 true content)
        "letter_format" with
    | some r => some r
    | none =>
      tryFormat content (scanLS hybridFormatTry 0 true content) "hybrid_format"

/-- The explanation-start indicator substrings
(answer_parser.py lines 412-415). -/
def explIndicators : List Str :=
  [strL "because:", strL "explanation:", strL "correct answer",
   strL "option", strL "ideally", strL "provides", strL "allows",
   strL "enables"]

/-- `line.startswith(('A.', 'B.', 'C.', 'D.', 'E.'))`. -/
def startsWithOptLetter (line : Str) : Bool :=
  [strL "A.", strL "B.", strL "C.", strL "D.",
    strL "E."].any (fun p => headMatches p line)

/-- The line loop of `AnswerParser.extract_explanation` (lines 399-421),
including the source's unreachable `elif` branches (once collecting, the
first branch always fires). -/
def explLoop : Bool → List Str → List Str → List Str
  | _, acc, [] => acc
  | collecting, acc, l :: rest =>
    let line := pyStrip l
    if line.isEmpty then explLoop collecting acc rest
    else if dashRun3 line then
      if !acc.isEmpty then acc else explLoop collecting acc rest
    else if explIndicators.any (fun ind => containsSub (pyLower line) ind) ||
        collecting then
      explLoop true (acc ++ [line]) rest
    else if collecting && !line.isEmpty && !startsWithOptLetter line then
      explLoop collecting (acc ++ [line]) rest
    else if collecting then acc
    else explLoop collecting acc rest

/-- `AnswerParser.extract_explanation` (lines 387-443), the `try` branch
(no step of it can raise).  Python's `content.find` returns `-1` when the
cleaned answer text no longer occurs; `answer_end` is then
`len(answer_text) - 1`, as in the source arithmetic. -/
def extract_explanation (content : Str) (answer_text : Str) : Str :=
  let answer_end :=
    match findSub content answer_text with
    | some i => i + answer_text.length
    | none => answer_text.length - 1
  let remaining := content.drop answer_end
  let explanation_lines := explLoop false [] (pySplitChar remaining '\n')
  let explanation := List.intercalate (strL " ") explanation_lines
  let explanation := wsCollapse explanation
  let explanation := pyStrip (replaceAll (strL "because:") [] explanation)
  let explanation :=
    if 1000 < explanation.length then explanation.take 1000 ++ strL "..."
    else explanation
  pyStrip explanation

/-- `AnswerParser.extract_keywords` (lines 445-464): its own 21-keyword
list. -/
def aws_keywords_ap : List Str :=
  [strL "S3", strL "EC2", strL "VPC", strL "RDS", strL "Lambda",
   strL "CloudWatch", strL "IAM", strL "EBS", strL "ELB",
   strL "Auto Scaling", strL "CloudFormation", strL "Route 53",
   strL "CloudFront", strL "SQS", strL "SNS",
   strL "DynamoDB", strL "Kinesis", strL "API Gateway", strL "ElastiCache",
   strL "ECS", strL "EKS"]

/-- `AnswerParser.extract_keywords` (lines 445-464). -/
def extract_keywords_ap (explanation : Str) : List String :=
  if explanation.isEmpty then []
  else
    let eu := pyUpper explanation
    ((aws_keywords_ap.filter (fun kw => containsSub eu (pyUpper kw))).map
      (fun kw => String.mk kw)).take 10

/-- `AnswerParser.calculate_parsing_confidence` (lines 466-492). -/
def calculate_parsing_confidence (answer_data : AnswerFmt)
    (explanation : Str) (question_preview : Str) : ℚ :=
  let score := answer_data.match_confidence * (2/5)
  let atext := answer_data.answer_text
  let score := score +
    (if 20 ≤ atext.length ∧ atext.length ≤ 300 then 1/5
     else if 10 ≤ atext.length ∧ atext.length ≤ 500 then 1/10
     else 0)
  let score := score +
    (if !explanation.isEmpty ∧ 50 < explanation.length then 1/5
     else if !explanation.isEmpty then 1/10
     else 0)
  let score := score +
    (if !question_preview.isEmpty ∧ 30 < question_preview.length then 1/5
     else if !question_preview.isEmpty then 1/10
     else 0)
  min score 1

/-! ## src/tools/answer_parser.py — per-segment parsing and output -/

/-- A `low_confidence_answers` statistics record (lines 210-215). -/
structure LowConfRec where
  answer_number : Nat
  confidence : ℚ
  format_used : String
  preview : Str
deriving DecidableEq, Repr

/-- An `unparseable_segments` statistics record (lines 192-196). -/
structure UnparseRec where
  answer_number : Nat
  content_preview : Str
  reason : String
deriving DecidableEq, Repr

/-- The statistics of one `AnswerParser` run (the fields `create_output`
reads).  `parsing_errors` stays empty in the pure model: no step of the
embedded `parse_segment` can raise. -/
structure APStats where
  total_segments : Nat
  successfully_parsed : Nat
  format_distribution : List (String × Nat)
  parsing_errors : List String
  low_confidence_answers : List LowConfRec
  unparseable_segments : List UnparseRec
deriving DecidableEq, Repr

/-- The statistics a fresh `AnswerParser` starts with (lines 58-65). -/
def initAPStats : APStats := ⟨0, 0, [], [], [], []⟩

/-- `stats[name] = stats.get(name, 0) + 1` on a string-keyed dict. -/
def sdictIncr (d : List (String × Nat)) (k : String) : List (String × Nat) :=
  match d with
  | [] => [(k, 1)]
  | (k0, v) :: rest =>
    if k0 = k then (k0, v + 1) :: rest else (k0, v) :: sdictIncr rest k

/-- One parsed answer (the dict `parse_segment` returns, lines 221-230). -/
structure AnswerData where
  answer_number : Nat
  question_preview : Str
  correct_answer : Str
  answer_format : String
  explanation : Str
  keywords : List String
  raw_text : Str
  parsing_confidence : ℚ
deriving DecidableEq, Repr

/-- `AnswerParser.parse_segment` (lines 170-230), with the statistics
object threaded explicitly. -/
def parse_segment (stats : APStats) (answer_number : Nat)
    (segment_content : Str) : APStats × Option AnswerData :=
  let cleaned_content := clean_segment_content segment_content
  let question_preview := extract_question_preview cleaned_content
  match extract_answer_multiple_formats cleaned_content with
  | none =>
    ({ stats with unparseable_segments := stats.unparseable_segments ++
        [⟨answer_number, cleaned_content.take 300,
          "No answer format matched"⟩] }, none)
  | some answer_data =>
    let explanation := extract_explanation cleaned_content answer_data.answer_text
    let keywords := extract_keywords_ap explanation
    let confidence :=
      calculate_parsing_confidence answer_data explanation question_preview
    let stats :=
      if confidence < 1/2 then
        { stats with low_confidence_answers := stats.low_confidence_answers ++
            [⟨answer_number, confidence, answer_data.format,
              question_preview.take 100⟩] }
      else stats
    let stats :=
      { stats with
        format_distribution := sdictIncr stats.format_distribution answer_data.format }
    (stats, some
      { answer_number := answer_number
        question_preview := question_preview
        correct_answer := answer_data.answer_text
        answer_format := answer_data.format
        explanation := explanation
        keywords := keywords
        raw_text := segment_content.take 500
        parsing_confidence := pyRound3 confidence })

/-- The metadata block of `AnswerParser.create_output` (lines 503-515).
`parsing_date` is `datetime.now().isoformat()` in the source — here the
timestamp is an explicit input, the only nondeterministic one. -/
structure APMetadata where
  parsing_date : String
  source_file : String
  total_segments : Nat
  total_answers : Nat
  parsing_success_rate : ℚ
  average_confidence : ℚ
  format_distribution : List (String × Nat)
  low_confidence_count : Nat
  unparseable_count : Nat
  parsing_errors : Nat
deriving DecidableEq, Repr

/-- The `parsing_report` block of `create_output` (lines 517-522). -/
structure APReport where
  format_breakdown : List (String × Nat)
  low_confidence_answers : List LowConfRec
  unparseable_segments : List UnparseRec
  parsing_errors : List String
deriving DecidableEq, Repr

/-- The full output structure of `AnswerParser.parse_answers`. -/
structure APOutput where
  metadata : APMetadata
  answers : List AnswerData
  parsing_report : APReport
deriving DecidableEq, Repr

/-- `AnswerParser.create_output` (lines 494-523). -/
def create_output (stats : APStats) (answers : List AnswerData)
    (text_path : String) (timestamp : String) : APOutput :=
  let success_rate : ℚ :=
    if 0 < stats.total_segments then
      (stats.successfully_parsed : ℚ) / (stats.total_segments : ℚ)
    else 0
  let confidences := answers.map (fun a => a.parsing_confidence)
  let avg_confidence : ℚ :=
    if confidences.isEmpty then 0
    else confidences.sum / (confidences.length : ℚ)
  let md : APMetadata :=
    { parsing_date := timestamp
      source_file := text_path
      total_segments := stats.total_segments
      total_answers := answers.length
      parsing_success_rate := pyRound3 success_rate
      average_confidence := pyRound3 avg_confidence
      format_distribution := stats.format_distribution
      low_confidence_count := stats.low_confidence_answers.length
      unparseable_count := stats.unparseable_segments.length
      parsing_errors := stats.parsing_errors.length }
  let rp : APReport :=
    { format_breakdown := stats.format_distribution
      low_confidence_answers := stats.low_confidence_answers.take 10
      unparseable_segments := stats.unparseable_segments
      parsing_errors := stats.parsing_errors.take 5 }
  { metadata := md, answers := answers, parsing_report := rp }

/-- `AnswerParser.parse_answers` (lines 82-132) on an already-read
document: segment, parse every segment (a failed segment records its
statistics and the loop continues), and build the output.  The
`timestamp` argument stands for the single `datetime.now().isoformat()`
call in `create_output`; nothing else in the source reads the clock or
any other nondeterministic input. -/
def parse_answers (content : Str) (text_path : String) (timestamp : String) :
    APOutput :=
  let segments := segment_by_questions content
  let folded := segments.foldl
    (fun (st : APStats × List AnswerData) seg =>
      match parse_segment st.1 seg.number seg.content with
      | (stats1, some a) =>
        ({ stats1 with successfully_parsed := stats1.successfully_parsed + 1 },
          st.2 ++ [a])
      | (stats1, none) => (stats1, st.2))
    (initAPStats, [])
  let stats := { folded.1 with total_segments := segments.length }
  create_output stats folded.2 text_path timestamp

/-! ## src/tools/v2_answer_parser.py — `V2AnswerParser.flag_for_manual_review` -/

/-- `V2AnswerParser.flag_for_manual_review` (v2_answer_parser.py lines
618-627).  The Python default for `threshold` is `0.7`; it is passed
explicitly here. -/
def flag_for_manual_review (r : MappingResult) (threshold : ℚ) : Bool :=
  decide (r.validation_confidence < threshold) ||
  decide (0 < r.mapping_issues.length) ||
  (r.mapping_method == "fuzzy_text_match" || r.mapping_method == "no_match_found") ||
  decide (r.correct_answers.length = 0)

/-! ## Statement-support definitions

Abbreviations, derived from the embedded source functions, used to state
the theorems below. -/

/-- The indices the letter-mapping path produces:
`ord(letter) - ord('A')` for each extracted letter. -/
def mappedIndices (answer_text : Str) : List Nat :=
  (extract_answer_letters answer_text).map
    (fun c => (pyUpperChar c).toNat - 'A'.toNat)

/-- The mapped indices at or beyond the option count. -/
def oobOf (answer_text : Str) (n : Nat) : List Nat :=
  (mappedIndices answer_text).filter (fun i => decide (n ≤ i))

/-- The mapped indices within the option count. -/
def validOf (answer_text : Str) (n : Nat) : List Nat :=
  (mappedIndices answer_text).filter (fun i => decide (i < n))

/-- The text-similarity factor `validate_answer_mapping` multiplies in
(1 when no mapped index is in range). -/
def simFactor (answer_text : Str) (options : List (Str × Str)) : ℚ :=
  if (validOf answer_text options.length).isEmpty then 1
  else calculate_text_similarity answer_text
    ((validOf answer_text options.length).map
      (fun i => (options.getD i ([], [])).2))

/-- The low-similarity issue `validate_answer_mapping` may append after
the out-of-bounds issues. -/
def lowSimPart (answer_text : Str) (options : List (Str × Str)) :
    List String :=
  if (validOf answer_text options.length).isEmpty then []
  else if simFactor answer_text options < 1/2 then [low_sim_issue] else []

/-- Erase the only timestamp field of an `APOutput`
(`metadata.parsing_date`). -/
def stripTimestamp (o : APOutput) : APOutput :=
  { o with metadata := { o.metadata with parsing_date := "" } }

/-- The names of the nine aggressive patterns, in source order
(v2_aggressive_parser.py lines 32-87). -/
def aggressive_pattern_names : List String :=
  ["letter_flexible", "action_based", "aws_service_based", "sentence_based",
   "line_extraction", "standalone_action", "aws_heavy_heuristic",
   "answer_indicator", "option_context"]

/-- Concrete scenario (spec §8): a segment whose only action-led sentence
is "Create an S3 Transfer Acceleration...", with no letter-prefixed
answer.  The question data... -/
def scenarioQd : QuestionDataAg :=
  { question_id := "q12"
    question_number := 12
    question_text :=
      strL "Which solution improves S3 upload speed with minimal changes?"
    options :=
      [⟨strL "Create an S3 Transfer Acceleration endpoint."⟩,
       ⟨strL "Use EBS snapshots."⟩] }

/-- ... the question context found in the document ... -/
def scenarioCtx : Str :=
  strL ("12. Which solution improves S3 upload speed with minimal changes? " ++
    "Create an S3 Transfer Acceleration endpoint. Use EBS snapshots.")

/-- ... and the `findall` results of the nine aggressive patterns on
`scenarioCtx` (computed with the source regexes; only `line_extraction`,
`standalone_action` and `option_context` match). -/
def scenarioPatternResults : List (String × List AggMatch) :=
  [("letter_flexible", []),
   ("action_based", []),
   ("aws_service_based", []),
   ("sentence_based", []),
   ("line_extraction",
     [.tup (strL "C")
       (strL "reate an S3 Transfer Acceleration endpoint. Use EBS snapshots.")]),
   ("standalone_action",
     [.single (strL "Create an S3 Transfer Acceleration endpoint.")]),
   ("aws_heavy_heuristic", []),
   ("answer_indicator", []),
   ("option_context",
     [.single (strL "Which solution improves S3 upload speed with minimal changes?"),
      .single (strL "Create an S3 Transfer Acceleration endpoint.")])]

/-- The best state the pattern cascade reaches on the scenario: the
`standalone_action` candidate at confidence 0.67 (the `line_extraction`
and `option_context` candidates score 0.65, 0.65 and 0.57). -/
def scenarioBest : BestState :=
  ⟨some ⟨strL "Create an S3 Transfer Acceleration endpoint.",
         strL "reate an S3 Transfer Acceleration endpoint.",
         strL "reate an S3 Transfer Acceleration endpoint.", []⟩,
   67/100, some "standalone_action"⟩

/-- The answer record `extract_answer_aggressively` emits on the scenario
(the letters `A`, `E` come from the case-insensitive pair pattern
`([A-E])\s*[,\s]\s*([A-E])` matching `...e an...` inside the raw text). -/
def scenarioAnswer : AggAnswer :=
  { question_id := "q12"
    question_number := 12
    raw_answer_text := strL "Create an S3 Transfer Acceleration endpoint."
    extraction_method := "standalone_action"
    correct_answers := [0, 4]
    validation_confidence := 67/100
    mapping_issues := []
    mapping_method := "aggressive_extraction"
    explanation := strL "reate an S3 Transfer Acceleration endpoint."
    keywords := ["S3", "Create"]
    requires_manual_review := true
    aggressive_extraction := true
    parsing_confidence := 67/100 }

/-! # Theorems -/

/-! ## Dict lemmas -/

theorem dictGet_dictInsert {α : Type} (d : List (Nat × α)) (k : Nat) (v : α)
    (k' : Nat) :
    dictGet (dictInsert d k v) k' = if k' = k then some v else dictGet d k' := by
  induction d with
  | nil =>
    by_cases h : k' = k
    · subst h
      simp [dictInsert, dictGet, List.find?]
    · have hb : (k == k') = false := by
        simp only [beq_eq_false_iff_ne, ne_eq]
        exact fun hc => h hc.symm
      simp [dictInsert, dictGet, List.find?, hb, h]
  | cons e rest ih =>
    obtain ⟨k0, v0⟩ := e
    by_cases h0 : k0 = k
    · subst h0
      by_cases h : k' = k0
      · subst h
        simp [dictInsert, dictGet, List.find?]
      · have hb : (k0 == k') = false := by
          simp only [beq_eq_false_iff_ne, ne_eq]
          exact fun hc => h hc.symm
        simp [dictInsert, dictGet, List.find?, hb, h]
    · have hins : dictInsert ((k0, v0) :: rest) k v =
          (k0, v0) :: dictInsert rest k v := by
        simp [dictInsert, h0]
      by_cases h1 : k0 = k'
      · subst h1
        simp only [hins, dictGet, List.find?, beq_self_eq_true, Option.map_some]
        exact (if_neg h0).symm
      · have hb : (k0 == k') = false := by simp [h1]
        simp only [hins, dictGet, List.find?, hb]
        have ih' := ih
        simp only [dictGet] at ih'
        rw [ih']

theorem dictGet_eq_none_of_not_contains {α : Type} (d : List (Nat × α))
    (k : Nat) (h : dictContains d k = false) : dictGet d k = none := by
  induction d with
  | nil => simp [dictGet]
  | cons e rest ih =>
    simp only [dictContains, List.any_cons, Bool.or_eq_false_iff] at h
    simp only [dictGet, List.find?, h.1]
    exact ih h.2

theorem dictContains_eq_isSome {α : Type} (d : List (Nat × α)) (k : Nat) :
    dictContains d k = (dictGet d k).isSome := by
  induction d with
  | nil => simp [dictContains, dictGet]
  | cons e rest ih =>
    by_cases h : (e.1 == k) = true
    · simp [dictContains, dictGet, List.any_cons, List.find?, h]
    · have hb : (e.1 == k) = false := by simpa using h
      simp only [dictContains, List.any_cons, hb, Bool.false_or, dictGet,
        List.find?]
      simpa [dictGet] using ih

theorem dictContains_dictInsert {α : Type} (d : List (Nat × α)) (k : Nat)
    (v : α) (k' : Nat) :
    dictContains (dictInsert d k v) k' = (dictContains d k' || decide (k' = k)) := by
  rw [dictContains_eq_isSome, dictContains_eq_isSome, dictGet_dictInsert]
  by_cases h : k' = k <;> simp [h]

/-- Lookup after folding `dictInsert` over a list: the last inserted entry
with the key wins, else the initial dict answers. -/
theorem dictGet_foldl_insert {α β : Type} (key : α → Nat) (val : α → β) :
    ∀ (xs : List α) (d : List (Nat × β)) (k : Nat),
    dictGet (xs.foldl (fun d x => dictInsert d (key x) (val x)) d) k =
      match xs.reverse.find? (fun x => key x == k) with
      | some x => some (val x)
      | none => dictGet d k
  | [], d, k => by simp
  | x :: xs, d, k => by
    simp only [List.foldl_cons, List.reverse_cons, List.find?_append]
    rw [dictGet_foldl_insert key val xs (dictInsert d (key x) (val x)) k]
    cases hfind : xs.reverse.find? (fun x => key x == k) with
    | some y => simp
    | none =>
      simp only [Option.none_or]
      rw [dictGet_dictInsert]
      by_cases h : key x = k
      · simp [List.find?, h]
      · have hb : (key x == k) = false := by simp [h]
        simp only [List.find?, hb]
        exact if_neg (fun hc => h hc.symm)

/-- `dictGet_foldl_insert` specialised to lists of key-value pairs. -/
theorem dictGet_foldl_pairs {β : Type} (xs : List (Nat × β))
    (d : List (Nat × β)) (k : Nat) :
    dictGet (xs.foldl (fun d q => dictInsert d q.1 q.2) d) k =
      (xs.reverse.find? (fun x => x.1 == k)).elim (dictGet d k)
        (fun x => some x.2) := by
  have h := dictGet_foldl_insert (fun q : Nat × β => q.1)
    (fun q : Nat × β => q.2) xs d k
  cases hf : xs.reverse.find? (fun x => x.1 == k) <;>
    rw [hf] at h <;> simpa using h

/-- In a list whose keys are distinct, `find?` by the key of a member
returns that member. -/
theorem find?_key_of_nodup {α : Type} (key : α → Nat) :
    ∀ (l : List α), (l.map key).Nodup → ∀ e ∈ l,
      l.find? (fun a => key a == key e) = some e
  | [], _, e, he => absurd he (List.not_mem_nil e)
  | x :: xs, hn, e, he => by
    simp only [List.map_cons, List.nodup_cons] at hn
    rcases List.mem_cons.mp he with rfl | hmem
    · simp [List.find?]
    · have hne : key x ≠ key e := by
        intro hcontra
        exact hn.1 (hcontra ▸ List.mem_map_of_mem key hmem)
      have : (key x == key e) = false := by simp [hne]
      simp only [List.find?, this]
      exact find?_key_of_nodup key xs hn.2 e hmem

/-- Membership of a key in the map image decides `find?` emptiness. -/
theorem find?_key_eq_none_iff {α : Type} (key : α → Nat) (l : List α)
    (k : Nat) : l.find? (fun a => key a == k) = none ↔ k ∉ l.map key := by
  rw [List.find?_eq_none]
  constructor
  · intro h hk
    rcases List.mem_map.mp hk with ⟨a, ha, hka⟩
    have := h a ha
    simp [hka] at this
  · intro h a ha
    intro hcontra
    simp only [beq_iff_eq] at hcontra
    exact h (hcontra ▸ List.mem_map_of_mem key ha)

/-! ## C1: the Combiner's merge -/

/-- The phase-2 loop of `merge_answer_sources`: aggressive answers whose
key is present are counted, absent keys are inserted. -/
theorem merge_phase2 :
    ∀ (xs : List SrcAnswer),
      ((xs.map (fun a => a.answer_number)).Nodup) →
      ∀ (d : List (Nat × SrcAnswer)) (c : Nat),
      (∀ k, dictGet (xs.foldl
          (fun st a =>
            if dictContains st.1 a.answer_number then (st.1, st.2 + 1)
            else (dictInsert st.1 a.answer_number (withSource a "aggressive"),
              st.2)) (d, c)).1 k =
        (if dictContains d k then dictGet d k
         else match xs.find? (fun a => a.answer_number == k) with
           | some a => some (withSource a "aggressive")
           | none => none)) ∧
      (xs.foldl
          (fun st a =>
            if dictContains st.1 a.answer_number then (st.1, st.2 + 1)
            else (dictInsert st.1 a.answer_number (withSource a "aggressive"),
              st.2)) (d, c)).2 =
        c + (xs.filter (fun a => dictContains d a.answer_number)).length
  | [], _, d, c => by
    constructor
    · intro k
      by_cases h : dictContains d k = true
      · simp [h]
      · have hb : dictContains d k = false := by simpa using h
        simp [hb, dictGet_eq_none_of_not_contains d k hb]
    · simp
  | x :: xs, hn, d, c => by
    simp only [List.map_cons, List.nodup_cons] at hn
    by_cases hx : dictContains d x.answer_number = true
    · have ih := merge_phase2 xs hn.2 d (c + 1)
      constructor
      · intro k
        simp only [List.foldl_cons]
        rw [if_pos hx]
        rw [ih.1 k]
        by_cases hk : dictContains d k = true
        · simp [hk]
        · have hkb : dictContains d k = false := by simpa using hk
          have hne : (x.answer_number == k) = false := by
            simp only [beq_eq_false_iff_ne, ne_eq]
            intro hcontra
            rw [hcontra] at hx
            rw [hx] at hkb
            exact absurd hkb (by simp)
          simp [hkb, List.find?, hne]
      · simp only [List.foldl_cons]
        rw [if_pos hx]
        rw [ih.2, List.filter_cons, if_pos hx]
        simp only [List.length_cons]
        omega
    · have hxb : dictContains d x.answer_number = false := by simpa using hx
      have ih := merge_phase2 xs hn.2
        (dictInsert d x.answer_number (withSource x "aggressive")) c
      constructor
      · intro k
        simp only [List.foldl_cons]
        rw [if_neg hx]
        rw [ih.1 k]
        by_cases hk : k = x.answer_number
        · subst hk
          have h1 : dictContains
              (dictInsert d x.answer_number (withSource x "aggressive"))
              x.answer_number = true := by
            rw [dictContains_dictInsert]
            simp
          rw [if_pos h1, dictGet_dictInsert]
          simp [hxb, List.find?]
        · have h1 : dictContains
              (dictInsert d x.answer_number (withSource x "aggressive")) k =
              dictContains d k := by
            rw [dictContains_dictInsert]
            simp [hk]
          rw [h1]
          have hne : (x.answer_number == k) = false := by
            simp only [beq_eq_false_iff_ne, ne_eq]
            exact fun hcontra => hk hcontra.symm
          by_cases hk2 : dictContains d k = true
          · rw [if_pos hk2, if_pos hk2, dictGet_dictInsert, if_neg hk]
          · have hk2b : dictContains d k = false := by simpa using hk2
            simp [hk2b, List.find?, hne]
      · simp only [List.foldl_cons]
        rw [if_neg hx]
        rw [ih.2, List.filter_cons, if_neg (by simp [hxb])]
        have hcong : (xs.filter (fun a => dictContains
            (dictInsert d x.answer_number (withSource x "aggressive"))
            a.answer_number)) =
            (xs.filter (fun a => dictContains d a.answer_number)) := by
          apply List.filter_congr
          intro a ha
          rw [dictContains_dictInsert]
          have hne : a.answer_number ≠ x.answer_number := by
            intro hcontra
            exact hn.1 (hcontra ▸ List.mem_map_of_mem
              (fun a : SrcAnswer => a.answer_number) ha)
          simp [hne]
        rw [hcong]

/-- Lookup in the phase-1 dict of `merge_answer_sources`. -/
theorem merge_phase1_get (enh : List SrcAnswer) (k : Nat) :
    dictGet (enh.foldl
      (fun d a => dictInsert d a.answer_number (withSource a "enhanced")) []) k =
      match enh.reverse.find? (fun a => a.answer_number == k) with
      | some a => some (withSource a "enhanced")
      | none => none := by
  rw [dictGet_foldl_insert (fun a => a.answer_number)
    (fun a => withSource a "enhanced") enh [] k]
  cases enh.reverse.find? (fun a => a.answer_number == k) <;> simp [dictGet]

/-- The keys of the phase-1 dict are exactly the enhanced answer numbers. -/
theorem merge_phase1_contains (enh : List SrcAnswer) (k : Nat) :
    dictContains (enh.foldl
      (fun d a => dictInsert d a.answer_number (withSource a "enhanced")) []) k =
      decide (k ∈ enh.map (fun a => a.answer_number)) := by
  rw [dictContains_eq_isSome, merge_phase1_get]
  cases hfind : enh.reverse.find? (fun a => a.answer_number == k) with
  | some a =>
    have hpred := List.find?_some hfind
    have hmem : a ∈ enh := List.mem_reverse.mp (List.mem_of_find?_eq_some hfind)
    simp only [beq_iff_eq] at hpred
    have hk : k ∈ enh.map (fun a => a.answer_number) :=
      hpred ▸ List.mem_map_of_mem (fun a : SrcAnswer => a.answer_number) hmem
    simp [hk]
  | none =>
    have hnk : k ∉ enh.reverse.map (fun a => a.answer_number) :=
      (find?_key_eq_none_iff (fun a : SrcAnswer => a.answer_number)
        enh.reverse k).mp hfind
    simp only [List.map_reverse, List.mem_reverse] at hnk
    simp [hnk]

/-- C1: in `DataCombiner.merge_answer_sources` (and identically in
`V2DataCombiner.merge_answer_sources`, which differs only in reading the
key from `question_number` first), a question index present in both
collections keeps the enhanced record — the merged record equals the
enhanced one with `source := "enhanced"`, so its `extraction_method` is
the enhanced stage's, never the aggressive one; the aggressive duplicate
is merely counted (the merge is a total function, no error path).  An
index in only one collection maps to that collection's record. -/
theorem merge_answer_sources_precedence (enh agg : List SrcAnswer)
    (he : (enh.map (fun a => a.answer_number)).Nodup)
    (ha : (agg.map (fun a => a.answer_number)).Nodup) :
    (∀ e ∈ enh,
      dictGet (merge_answer_sources enh agg).1 e.answer_number =
        some (withSource e "enhanced")) ∧
    (∀ a ∈ agg, a.answer_number ∉ enh.map (fun e => e.answer_number) →
      dictGet (merge_answer_sources enh agg).1 a.answer_number =
        some (withSource a "aggressive")) ∧
    (merge_answer_sources enh agg).2 =
      (agg.filter (fun a =>
        decide (a.answer_number ∈ enh.map (fun e => e.answer_number)))).length := by
  have hrevnodup : (enh.reverse.map (fun a => a.answer_number)).Nodup := by
    rw [List.map_reverse]
    exact List.nodup_reverse.mpr he
  have hphase2 := merge_phase2 agg ha
    (enh.foldl (fun d a => dictInsert d a.answer_number (withSource a "enhanced")) [])
    0
  have hm : merge_answer_sources enh agg =
      agg.foldl
        (fun st a =>
          if dictContains st.1 a.answer_number then (st.1, st.2 + 1)
          else (dictInsert st.1 a.answer_number (withSource a "aggressive"),
            st.2))
        (enh.foldl
          (fun d a => dictInsert d a.answer_number (withSource a "enhanced"))
          [], 0) := rfl
  refine ⟨?_, ?_, ?_⟩
  · intro e he_mem
    have h1 : dictContains (enh.foldl
        (fun d a => dictInsert d a.answer_number (withSource a "enhanced")) [])
        e.answer_number = true := by
      rw [merge_phase1_contains]
      simp only [decide_eq_true_eq]
      exact List.mem_map_of_mem (fun a : SrcAnswer => a.answer_number) he_mem
    rw [hm, hphase2.1 e.answer_number, if_pos h1, merge_phase1_get]
    rw [find?_key_of_nodup (fun a : SrcAnswer => a.answer_number)
      enh.reverse hrevnodup e (List.mem_reverse.mpr he_mem)]
  · intro a ha_mem hnot
    have h1 : dictContains (enh.foldl
        (fun d a => dictInsert d a.answer_number (withSource a "enhanced")) [])
        a.answer_number = false := by
      rw [merge_phase1_contains]
      simpa using hnot
    rw [hm, hphase2.1 a.answer_number, if_neg (by simp [h1])]
    rw [find?_key_of_nodup (fun a : SrcAnswer => a.answer_number) agg ha a
      ha_mem]
  · rw [hm, hphase2.2]
    simp only [Nat.zero_add]
    congr 1
    apply List.filter_congr
    intro a _
    rw [merge_phase1_contains]

/-- C1 witness: a concrete merge in which question 2 appears in both
collections — the enhanced record (method `pattern_2`) wins and the
duplicate is counted — question 1 is enhanced-only and question 3 is
aggressive-only. -/
theorem merge_answer_sources_precedence_witness :
    dictGet (merge_answer_sources
        [⟨1, "pattern_1", none⟩, ⟨2, "pattern_2", none⟩]
        [⟨2, "standalone_action", none⟩, ⟨3, "context_inference", none⟩]).1 2 =
      some ⟨2, "pattern_2", some "enhanced"⟩ ∧
    dictGet (merge_answer_sources
        [⟨1, "pattern_1", none⟩, ⟨2, "pattern_2", none⟩]
        [⟨2, "standalone_action", none⟩, ⟨3, "context_inference", none⟩]).1 3 =
      some ⟨3, "context_inference", some "aggressive"⟩ ∧
    (merge_answer_sources
        [⟨1, "pattern_1", none⟩, ⟨2, "pattern_2", none⟩]
        [⟨2, "standalone_action", none⟩, ⟨3, "context_inference", none⟩]).2 = 1 := by
  have h := merge_answer_sources_precedence
    [⟨1, "pattern_1", none⟩, ⟨2, "pattern_2", none⟩]
    [⟨2, "standalone_action", none⟩, ⟨3, "context_inference", none⟩]
    (by decide) (by decide)
  refine ⟨?_, ?_, ?_⟩
  · exact h.1 ⟨2, "pattern_2", none⟩ (by simp)
  · exact h.2.1 ⟨3, "context_inference", none⟩ (by simp) (by decide)
  · rw [h.2.2]
    decide

/-! ## C10: the manual-review flag -/

/-- C10: a V2 answer record's `requires_manual_review` (computed by
`flag_for_manual_review` with its default threshold 0.7, the value
`parse_question_answer` passes) is `false` exactly when all of the
following hold: validation confidence at least 0.7, empty mapping-issue
list, mapping method neither `fuzzy_text_match` nor `no_match_found`, and
a nonempty correct-answer index list — any one failing forces the flag. -/
theorem flag_for_manual_review_iff (r : MappingResult) :
    flag_for_manual_review r (7/10) = false ↔
      ((7/10 : ℚ) ≤ r.validation_confidence ∧ r.mapping_issues = [] ∧
        r.mapping_method ≠ "fuzzy_text_match" ∧
        r.mapping_method ≠ "no_match_found" ∧ r.correct_answers ≠ []) := by
  simp only [flag_for_manual_review, Bool.or_eq_false_iff,
    decide_eq_false_iff_not, not_lt, beq_eq_false_iff_ne, ne_eq,
    List.length_eq_zero]
  constructor
  · rintro ⟨⟨⟨h1, h2⟩, h3, h4⟩, h5⟩
    exact ⟨h1, by simpa using h2, h3, h4, h5⟩
  · rintro ⟨h1, h2, h3, h4, h5⟩
    exact ⟨⟨⟨h1, by simp [h2]⟩, h3, h4⟩, h5⟩

/-! ## C9: determinism of the extraction pipeline -/

/-- C9: running `AnswerParser.parse_answers` twice on the same document
with the same configuration yields identical output in every field except
the metadata timestamp.  The embedding passes the single
`datetime.now().isoformat()` read of `create_output` as the explicit
`timestamp` argument — segmentation, per-segment extraction, scoring and
output assembly are all functions of the document alone, so two runs with
different clock values agree after erasing `metadata.parsing_date`, where
the timestamp provably lands. -/
theorem parse_answers_deterministic (content : Str) (path : String)
    (ts1 ts2 : String) :
    stripTimestamp (parse_answers content path ts1) =
      stripTimestamp (parse_answers content path ts2) ∧
    (parse_answers content path ts1).metadata.parsing_date = ts1 := by
  constructor
  · simp [parse_answers, create_output, stripTimestamp]
  · simp [parse_answers, create_output]

/-! ## C5: zero delimiter matches -/

/-- C5 counterexample: on a document in which the Segmenter's delimiter
pattern has zero matches, `parse_answers` does not abort — it returns a
normal output structure with zero segments and zero answers (the claim
said the run is aborted as a fatal error and no such structure is
produced; the source has no error path here, and `create_output` even
guards the division for the zero-segment case). -/
theorem parse_answers_zero_delims_counterexample :
    question_delimiter_matches
      (strL "no delimiter anywhere in this text") = [] ∧
    (parse_answers (strL "no delimiter anywhere in this text")
      "input.txt" "2024-01-01T00:00:00").answers = [] ∧
    (parse_answers (strL "no delimiter anywhere in this text")
      "input.txt" "2024-01-01T00:00:00").metadata.total_segments = 0 ∧
    (parse_answers (strL "no delimiter anywhere in this text")
      "input.txt" "2024-01-01T00:00:00").metadata.total_answers = 0 := by
  refine ⟨by decide, by decide, by decide, by decide⟩

/-- C5 as amended: zero delimiter matches is not a fatal error — the parse
continues and emits an output structure with zero segments, zero answers
and success rate 0. -/
theorem parse_answers_zero_delims (content : Str) (path ts : String)
    (h : question_delimiter_matches content = []) :
    (parse_answers content path ts).answers = [] ∧
    (parse_answers content path ts).metadata.total_segments = 0 ∧
    (parse_answers content path ts).metadata.total_answers = 0 ∧
    (parse_answers content path ts).metadata.parsing_success_rate = 0 := by
  have hseg : segment_by_questions content = [] := by
    simp [segment_by_questions, h, segLoop]
  have hr : pyRound3 0 = 0 := by
    norm_num [pyRound3, pyRoundHalfEven, ratFloorZ]
  refine ⟨?_, ?_, ?_, ?_⟩ <;>
    simp [parse_answers, hseg, create_output, initAPStats, hr]

/-- C5 witness: the amended statement applied to a concrete document with
no delimiters. -/
theorem parse_answers_zero_delims_witness :
    (parse_answers (strL "just prose, not an exam dump")
      "a.txt" "T").answers = [] ∧
    (parse_answers (strL "just prose, not an exam dump")
      "a.txt" "T").metadata.total_segments = 0 ∧
    (parse_answers (strL "just prose, not an exam dump")
      "a.txt" "T").metadata.total_answers = 0 ∧
    (parse_answers (strL "just prose, not an exam dump")
      "a.txt" "T").metadata.parsing_success_rate = 0 :=
  parse_answers_zero_delims (strL "just prose, not an exam dump") "a.txt" "T"
    (by decide)

/-! ## C4: the segmentation partition -/

/-- The `segment_by_questions` loop equals the span view filtered by the
50-character minimum. -/
theorem segLoop_eq_spans (content : Str) :
    ∀ ms : List DelimMatch,
    segLoop content ms =
      ((ms.zip ((ms.map (fun m => m.start)).tail ++ [content.length])).map
        (fun p => (digitsToNat p.1.numStr,
          (content.drop p.1.start).take (p.2 - p.1.start)))).filterMap
        (fun q => if 50 < (pyStrip q.2).length then
          some (⟨q.1, pyStrip q.2⟩ : Segment) else none)
  | [] => by simp [segLoop]
  | m :: rest => by
    have ih := segLoop_eq_spans content rest
    cases rest with
    | nil =>
      simp only [segLoop, List.map_cons, List.map_nil, List.tail_cons,
        List.nil_append, List.zip_cons_cons, List.zip_nil_right,
        List.map_nil, List.filterMap_cons, List.filterMap_nil]
      by_cases h : 50 < (pyStrip ((content.drop m.start).take
          (content.length - m.start))).length
      · simp [h]
      · simp [h]
    | cons m2 rest2 =>
      simp only [segLoop, List.map_cons, List.tail_cons, List.cons_append,
        List.zip_cons_cons, List.filterMap_cons] at ih ⊢
      by_cases h : 50 < (pyStrip ((content.drop m.start).take
          (m2.start - m.start))).length
      · simp only [h, if_true, List.map_cons, List.filterMap_cons]
        simp [ih, h]
      · simp only [h, if_false, List.map_cons, List.filterMap_cons]
        simp [ih, h]

/-- The `extract_segments` loop equals folding `dictInsert` over the
stripped spans. -/
theorem extractSegLoop_eq_foldl (content : Str) :
    ∀ (ms : List DelimMatch) (d : List (Nat × Str)),
    extractSegLoop content ms d =
      ((ms.zip ((ms.map (fun m => m.start)).tail ++ [content.length])).map
        (fun p => (digitsToNat p.1.numStr,
          pyStrip ((content.drop p.1.start).take (p.2 - p.1.start))))).foldl
        (fun d q => dictInsert d q.1 q.2) d
  | [], d => by simp [extractSegLoop]
  | m :: rest, d => by
    have ih := extractSegLoop_eq_foldl content rest
    cases rest with
    | nil => simp [extractSegLoop]
    | cons m2 rest2 =>
      simp only [extractSegLoop, List.map_cons, List.tail_cons,
        List.cons_append, List.zip_cons_cons, List.map_cons, List.foldl_cons]
      exact ih _

/-- C4 as amended: each delimiter match's span runs from its start
position to the next match's start (end of document for the last match) —
but `AnswerParser.segment_by_questions` keeps only the matches whose
stripped span exceeds 50 characters (shorter spans are dropped), and
`AggressiveParser.extract_segments` keeps every span but keys the result
dict by question number, so of two matches with the same number only the
last survives (last-wins lookup). -/
theorem segmentation_spans (content : Str) :
    segment_by_questions content =
      (delimSpans content).filterMap (fun p =>
        if 50 < (pyStrip p.2).length then
          some (⟨p.1, pyStrip p.2⟩ : Segment) else none) ∧
    ∀ k, dictGet (extract_segments content) k =
      (((delimSpans content).map (fun p => (p.1, pyStrip p.2))).reverse.find?
        (fun e => e.1 == k)).map (fun e => e.2) := by
  constructor
  · rw [segment_by_questions, segLoop_eq_spans content
      (question_delimiter_matches content)]
    simp [delimSpans, List.filterMap_map, Function.comp]
  · intro k
    rw [extract_segments, extractSegLoop_eq_foldl content
      (question_delimiter_matches content) []]
    rw [dictGet_foldl_pairs]
    simp only [delimSpans, List.map_map]
    cases hf : ((((question_delimiter_matches content)).zip
        (((question_delimiter_matches content).map (fun m => m.start)).tail ++
          [content.length])).map
        (fun p => (digitsToNat p.1.numStr,
          pyStrip ((content.drop p.1.start).take (p.2 - p.1.start))))).reverse.find?
        (fun x => x.1 == k) with
    | some x =>
      have hf2 : ((((question_delimiter_matches content)).zip
          (((question_delimiter_matches content).map (fun m => m.start)).tail ++
            [content.length])).map
          ((fun p : Nat × Str => (p.1, pyStrip p.2)) ∘
            (fun p => (digitsToNat p.1.numStr,
              (content.drop p.1.start).take (p.2 - p.1.start))))).reverse.find?
          (fun x => x.1 == k) = some x := by
        simpa [Function.comp] using hf
      rw [hf2]
      rfl
    | none =>
      have hf2 : ((((question_delimiter_matches content)).zip
          (((question_delimiter_matches content).map (fun m => m.start)).tail ++
            [content.length])).map
          ((fun p : Nat × Str => (p.1, pyStrip p.2)) ∘
            (fun p => (digitsToNat p.1.numStr,
              (content.drop p.1.start).take (p.2 - p.1.start))))).reverse.find?
          (fun x => x.1 == k) = none := by
        simpa [Function.comp] using hf
      rw [hf2]
      simp [dictGet]

/-- C4 counterexample: a document whose delimiter pattern has two matches
(`1]` and `2]`) but whose first span strips to at most 50 characters
produces only one segment — a delimiter match is dropped, refuting
"exactly N segments ... with no delimiter match dropped". -/
theorem segmentation_counterexample :
    (question_delimiter_matches (strL
      ("1]ab2]" ++
        "xxxxxxxxxxxxxxxxxxxxxxxxxxxxxxxxxxxxxxxxxxxxxxxxxxxxxxxxxxxx"))).length
      = 2 ∧
    (segment_by_questions (strL
      ("1]ab2]" ++
        "xxxxxxxxxxxxxxxxxxxxxxxxxxxxxxxxxxxxxxxxxxxxxxxxxxxxxxxxxxxx"))).length
      = 1 := by
  refine ⟨by decide, by decide⟩

/-! ## C2: the letter-to-index mapping and its out-of-bounds handling -/

/-- The bounds-check loop of `validate_answer_mapping`: one out-of-bounds
issue is appended and the confidence is multiplied by 0.3 once per
out-of-range index. -/
theorem validate_fold_oob (n : Nat) :
    ∀ (indices : List Nat) (issues0 : List String) (conf0 : ℚ),
    indices.foldl (fun (st : List String × ℚ) idx =>
        if n ≤ idx then (st.1 ++ [oob_issue idx n], st.2 * (3/10)) else st)
      (issues0, conf0) =
      (issues0 ++ (indices.filter (fun i => decide (n ≤ i))).map
        (fun i => oob_issue i n),
       conf0 * (3/10) ^ (indices.filter (fun i => decide (n ≤ i))).length)
  | [], issues0, conf0 => by simp
  | idx :: rest, issues0, conf0 => by
    by_cases h : n ≤ idx
    · rw [List.foldl_cons, if_pos h,
        validate_fold_oob n rest (issues0 ++ [oob_issue idx n])
          (conf0 * (3/10))]
      rw [List.filter_cons, if_pos (by simpa using h)]
      simp only [List.map_cons, List.length_cons, Prod.mk.injEq]
      constructor
      · simp
      · ring
    · rw [List.foldl_cons, if_neg h,
        validate_fold_oob n rest issues0 conf0]
      rw [List.filter_cons, if_neg (by simpa using h)]

/-- Characterisation of `validate_answer_mapping`: the confidence is
`0.3 ^ (#out-of-bounds indices)` times the similarity factor of the
in-range selections, the issue list is one out-of-bounds issue per
out-of-range index followed by the optional low-similarity issue, and the
method is `letter_mapping` for a nonempty index list. -/
theorem validate_answer_mapping_spec (indices : List Nat)
    (options : List (Str × Str)) (raw : Str) :
    validate_answer_mapping indices options raw =
      { confidence :=
          (3/10) ^ (indices.filter
            (fun i => decide (options.length ≤ i))).length *
          (if (indices.filter (fun i => decide (i < options.length))).isEmpty
           then 1
           else calculate_text_similarity raw
             ((indices.filter (fun i => decide (i < options.length))).map
               (fun i => (options.getD i ([], [])).2)))
        issues :=
          (indices.filter (fun i => decide (options.length ≤ i))).map
            (fun i => oob_issue i options.length) ++
          (if (indices.filter (fun i => decide (i < options.length))).isEmpty
           then []
           else if calculate_text_similarity raw
              ((indices.filter (fun i => decide (i < options.length))).map
                (fun i => (options.getD i ([], [])).2)) < 1/2
            then [low_sim_issue] else [])
        validation_method :=
          if indices.isEmpty then "failed_extraction" else "letter_mapping" } := by
  simp only [validate_answer_mapping]
  rw [validate_fold_oob options.length indices [] 1]
  by_cases hv : (indices.filter (fun i => decide (i < options.length))).isEmpty
  · simp only [hv, if_true]
    simp [MappingResult.mk.injEq, ValidationResult.mk.injEq]
  · simp only [hv, if_false, Bool.false_eq_true]
    by_cases hs : calculate_text_similarity raw
        ((indices.filter (fun i => decide (i < options.length))).map
          (fun i => (options.getD i ([], [])).2)) < 1/2
    · simp only [hs, if_true]
      simp [ValidationResult.mk.injEq]
    · simp only [hs, if_false]
      simp [ValidationResult.mk.injEq]

/-- C2: when at least one valid letter is found in the raw answer text,
`process_extracted_answer` maps each deduplicated, order-preserved letter
`L` to `ord(L) - ord('A')`; every resulting index at or beyond the option
count contributes exactly one out-of-bounds issue and one factor 0.3 to
the confidence (which is then scaled by the text-similarity factor of the
in-range indices, 1 when there are none). -/
theorem process_extracted_answer_letters (answer_text : Str)
    (options : List (Str × Str)) (method : String)
    (h : extract_answer_letters answer_text ≠ []) :
    (process_extracted_answer answer_text options method).correct_answers =
      mappedIndices answer_text ∧
    (process_extracted_answer answer_text options method).mapping_method =
      "letter_mapping" ∧
    (process_extracted_answer answer_text options method).validation_confidence =
      (3/10) ^ (oobOf answer_text options.length).length *
        simFactor answer_text options ∧
    (process_extracted_answer answer_text options method).mapping_issues =
      (oobOf answer_text options.length).map
        (fun i => oob_issue i options.length) ++
        lowSimPart answer_text options := by
  have hne : (extract_answer_letters answer_text).isEmpty = false := by
    cases hl : extract_answer_letters answer_text with
    | nil => exact absurd hl h
    | cons a l => rfl
  have hmap : ¬(mappedIndices answer_text).isEmpty = true := by
    simp only [mappedIndices]
    cases hl : extract_answer_letters answer_text with
    | nil => exact absurd hl h
    | cons a l => simp
  simp only [process_extracted_answer, hne, Bool.false_eq_true, if_false]
  rw [show (extract_answer_letters answer_text).map
      (fun letter => (pyUpperChar letter).toNat - 'A'.toNat) =
      mappedIndices answer_text from rfl]
  rw [validate_answer_mapping_spec (mappedIndices answer_text) options
    answer_text]
  refine ⟨rfl, by simp [hmap], ?_, ?_⟩
  · simp only [simFactor, validOf, oobOf]
  · simp only [lowSimPart, validOf, oobOf, simFactor]
    by_cases he : (List.filter (fun i => decide (i < options.length))
        (mappedIndices answer_text)).isEmpty = true
    · simp [he]
    · simp [he]

/-- C2 witness: the raw text `"A, E"` against a single-option question
maps to indices `[0, 4]`; index 4 is out of bounds. -/
theorem process_extracted_answer_letters_witness :
    (process_extracted_answer (strL "A, E")
        [(strL "A", strL "Use S3")] "pattern_1").correct_answers =
      mappedIndices (strL "A, E") ∧
    (process_extracted_answer (strL "A, E")
        [(strL "A", strL "Use S3")] "pattern_1").mapping_method =
      "letter_mapping" ∧
    (process_extracted_answer (strL "A, E")
        [(strL "A", strL "Use S3")] "pattern_1").validation_confidence =
      (3/10) ^ (oobOf (strL "A, E")
        [((strL "A", strL "Use S3"))].length).length *
        simFactor (strL "A, E") [(strL "A", strL "Use S3")] ∧
    (process_extracted_answer (strL "A, E")
        [(strL "A", strL "Use S3")] "pattern_1").mapping_issues =
      (oobOf (strL "A, E") [((strL "A", strL "Use S3"))].length).map
        (fun i => oob_issue i [((strL "A", strL "Use S3"))].length) ++
        lowSimPart (strL "A, E") [(strL "A", strL "Use S3")] :=
  process_extracted_answer_letters (strL "A, E")
    [(strL "A", strL "Use S3")] "pattern_1" (by decide)

/-! ## C3: confidence ranges -/

/-- Every fuzzy candidate passed the strict `> 0.4` filter. -/
theorem fuzzy_candidates_mem_gt (answer_text : Str)
    (options : List (Str × Str)) (x : FuzzyMatch)
    (hx : x ∈ fuzzy_candidates answer_text options) :
    (2/5 : ℚ) < x.similarity := by
  rcases List.mem_filterMap.mp hx with ⟨p, _, hp⟩
  by_cases hgt : (4/10 : ℚ) <
      smRatioQ (pyLower answer_text) (pyLower p.2.2) +
        calculate_keyword_overlap answer_text p.2.2 * (2/10)
  · rw [if_pos hgt] at hp
    have hx2 := (Option.some.injEq _ _).mp hp
    have : x.similarity =
        smRatioQ (pyLower answer_text) (pyLower p.2.2) +
          calculate_keyword_overlap answer_text p.2.2 * (2/10) := by
      rw [← hx2]
    rw [this]
    calc (2/5 : ℚ) = 4/10 := by norm_num
    _ < _ := hgt
  · rw [if_neg hgt] at hp
    exact absurd hp (by simp)

/-- The head of the sorted fuzzy-candidate list dominates every
candidate. -/
theorem fuzzy_sorted_head_max (answer_text : Str)
    (options : List (Str × Str)) (best : FuzzyMatch) (tail : List FuzzyMatch)
    (hs : (fuzzy_candidates answer_text options).mergeSort fuzzyGE =
      best :: tail) :
    ∀ y ∈ fuzzy_candidates answer_text options,
      y.similarity ≤ best.similarity := by
  intro y hy
  have hperm := List.mergeSort_perm (fuzzy_candidates answer_text options)
    fuzzyGE
  have hy2 : y ∈ best :: tail := by
    rw [← hs]
    exact hperm.symm.mem_iff.mp hy
  have hsorted : List.Pairwise (fun a b => fuzzyGE a b = true)
      ((fuzzy_candidates answer_text options).mergeSort fuzzyGE) :=
    List.sorted_mergeSort
      (fun a b c hab hbc => by
        simp only [fuzzyGE, decide_eq_true_eq] at *
        exact le_trans hbc hab)
      (fun a b => by
        simp only [fuzzyGE, Bool.or_eq_true, decide_eq_true_eq]
        exact le_total b.similarity a.similarity)
      (fuzzy_candidates answer_text options)
  rw [hs] at hsorted
  rcases List.mem_cons.mp hy2 with rfl | hmem
  · exact le_refl _
  · have := List.rel_of_pairwise_cons hsorted hmem
    simpa [fuzzyGE] using this

/-- C3 as amended: the aggressive confidence scorer clamps its result to
`[0.1, 1] ⊆ [0, 1]`, and the fuzzy-match fallback's confidence is either 0
(`no_match_found`) or the best candidate's score, which exceeds 0.4 — but
that score is not clamped above (see the counterexample: it can reach
1.2). -/
theorem confidence_ranges :
    (∀ (cand : AggCandidate) (ctx : Str) (method : String) (qt : Str)
        (opts : List AgOption),
      (1/10 : ℚ) ≤ calculate_aggressive_confidence cand ctx method qt opts ∧
        calculate_aggressive_confidence cand ctx method qt opts ≤ 1) ∧
    (∀ (answer_text : Str) (options : List (Str × Str)),
      ((fuzzy_match_answer_text answer_text options).validation_confidence = 0 ∧
        (fuzzy_match_answer_text answer_text options).mapping_method =
          "no_match_found") ∨
      ((2/5 : ℚ) <
        (fuzzy_match_answer_text answer_text options).validation_confidence ∧
        (fuzzy_match_answer_text answer_text options).mapping_method =
          "fuzzy_text_match")) := by
  constructor
  · intro cand ctx method qt opts
    simp only [calculate_aggressive_confidence]
    exact ⟨le_min (le_max_right _ _) (by norm_num), min_le_right _ _⟩
  · intro answer_text options
    simp only [fuzzy_match_answer_text]
    cases hs : (fuzzy_candidates answer_text options).mergeSort fuzzyGE with
    | nil => left; exact ⟨rfl, rfl⟩
    | cons best tail =>
      right
      have hmem : best ∈ fuzzy_candidates answer_text options := by
        have hmem0 : best ∈
            (fuzzy_candidates answer_text options).mergeSort fuzzyGE := by
          rw [hs]
          exact List.mem_cons_self _ _
        exact (List.mergeSort_perm _ fuzzyGE).mem_iff.mp hmem0
      exact ⟨fuzzy_candidates_mem_gt answer_text options best hmem, rfl⟩

/-! ## C7: the fuzzy-matching fallback -/

/-- C7: with no valid letters in the raw text, `process_extracted_answer`
falls back to `fuzzy_match_answer_text`, which returns at most the single
best-scoring option index — a member of the candidate list (each entry
scored `ratio + 0.2 * keyword_overlap` and kept only above 0.4) that
dominates every candidate — under the `fuzzy_text_match` method, or an
empty index list with `no_match_found`; either way the result is flagged
for manual review. -/
theorem fuzzy_fallback_spec (answer_text : Str) (options : List (Str × Str))
    (method : String) (h : extract_answer_letters answer_text = []) :
    process_extracted_answer answer_text options method =
      fuzzy_match_answer_text answer_text options ∧
    (((fuzzy_match_answer_text answer_text options).mapping_method =
        "no_match_found" ∧
      (fuzzy_match_answer_text answer_text options).correct_answers = [] ∧
      (fuzzy_match_answer_text answer_text options).validation_confidence = 0 ∧
      fuzzy_candidates answer_text options = []) ∨
     (∃ best : FuzzyMatch,
      (fuzzy_match_answer_text answer_text options).mapping_method =
        "fuzzy_text_match" ∧
      (fuzzy_match_answer_text answer_text options).correct_answers =
        [best.index] ∧
      (fuzzy_match_answer_text answer_text options).validation_confidence =
        best.similarity ∧
      best ∈ fuzzy_candidates answer_text options ∧
      (2/5 : ℚ) < best.similarity ∧
      ∀ y ∈ fuzzy_candidates answer_text options,
        y.similarity ≤ best.similarity)) ∧
    flag_for_manual_review (fuzzy_match_answer_text answer_text options)
      (7/10) = true := by
  refine ⟨?_, ?_, ?_⟩
  · simp [process_extracted_answer, h]
  · cases hs : (fuzzy_candidates answer_text options).mergeSort fuzzyGE with
    | nil =>
      left
      have hnil : fuzzy_candidates answer_text options = [] := by
        have hperm := List.mergeSort_perm (fuzzy_candidates answer_text options)
          fuzzyGE
        rw [hs] at hperm
        exact (List.Perm.nil_eq hperm).symm
      simp [fuzzy_match_answer_text, hs, hnil]
    | cons best tail =>
      right
      refine ⟨best, ?_, ?_, ?_, ?_, ?_, ?_⟩
      · simp [fuzzy_match_answer_text, hs]
      · simp [fuzzy_match_answer_text, hs]
      · simp [fuzzy_match_answer_text, hs]
      · have hmem0 : best ∈
            (fuzzy_candidates answer_text options).mergeSort fuzzyGE := by
          rw [hs]
          exact List.mem_cons_self _ _
        exact (List.mergeSort_perm _ fuzzyGE).mem_iff.mp hmem0
      · have hmem0 : best ∈
            (fuzzy_candidates answer_text options).mergeSort fuzzyGE := by
          rw [hs]
          exact List.mem_cons_self _ _
        exact fuzzy_candidates_mem_gt answer_text options best
          ((List.mergeSort_perm _ fuzzyGE).mem_iff.mp hmem0)
      · exact fuzzy_sorted_head_max answer_text options best tail hs
  · cases hs : (fuzzy_candidates answer_text options).mergeSort fuzzyGE with
    | nil => simp [fuzzy_match_answer_text, hs, flag_for_manual_review]
    | cons best tail => simp [fuzzy_match_answer_text, hs, flag_for_manual_review]

/-- `SequenceMatcher.ratio` of `"s3"` against itself is 1. -/
theorem smRatio_s3 : smRatioQ (pyLower (strL "S3")) (pyLower (strL "S3")) = 1 := by
  have hm : matchingTotalF (pyLower (strL "S3")) (pyLower (strL "S3"))
      ((pyLower (strL "S3")).length + (pyLower (strL "S3")).length + 1)
      0 (pyLower (strL "S3")).length 0 (pyLower (strL "S3")).length = 2 := by
    decide
  simp only [smRatioQ, hm]
  norm_num [show (pyLower (strL "S3")).length = 2 from by decide]

/-- The keyword overlap of `"S3"` with itself is 1: `S3` is the single AWS
keyword mentioned, and it is shared. -/
theorem kwo_s3 : calculate_keyword_overlap (strL "S3") (strL "S3") = 1 := by
  have ht : (aws_keywords_v2.filter
      (fun kw => containsSub (pyLower (strL "S3")) (pyLower kw))).length = 1 := by
    decide
  have ho : (aws_keywords_v2.filter
      (fun kw => containsSub (pyLower (strL "S3")) (pyLower kw) &&
        containsSub (pyLower (strL "S3")) (pyLower kw))).length = 1 := by
    decide
  simp only [calculate_keyword_overlap, ht, ho]
  norm_num

/-- On raw text `"S3"` and the single option `"S3"`, the fuzzy scorer
produces one candidate with score `1 + 0.2 * 1 = 1.2`. -/
theorem fc_s3 : fuzzy_candidates (strL "S3") [(strL "A", strL "S3")] =
    [⟨0, 6/5⟩] := by
  simp only [fuzzy_candidates, List.enum, List.enumFrom, List.filterMap_cons,
    List.filterMap_nil]
  rw [smRatio_s3, kwo_s3]
  norm_num

/-- C3 counterexample: the fuzzy-matching confidence is NOT bounded by 1 —
the raw answer `"S3"` against the single option `"S3"` yields
`ratio + 0.2 * keyword_bonus = 1 + 0.2 = 1.2 > 1`, because
`fuzzy_match_answer_text` never clamps `final_similarity`. -/
theorem confidence_above_one_counterexample :
    1 < (process_extracted_answer (strL "S3")
      [(strL "A", strL "S3")] "pattern_1").validation_confidence := by
  have hms : ([⟨0, (6/5 : ℚ)⟩] : List FuzzyMatch).mergeSort fuzzyGE =
      [⟨0, 6/5⟩] :=
    List.perm_singleton.mp
      (List.mergeSort_perm ([⟨0, (6/5 : ℚ)⟩] : List FuzzyMatch) fuzzyGE)
  simp only [process_extracted_answer,
    show extract_answer_letters (strL "S3") = [] from by decide,
    List.isEmpty_nil, if_true]
  simp only [fuzzy_match_answer_text, fc_s3, hms]
  norm_num

/-- C7 witness: raw text with no `A`-`E` letters falls to the fuzzy path
and is flagged for review. -/
theorem fuzzy_fallback_spec_witness :
    process_extracted_answer (strL "S3 struts")
        [(strL "A", strL "Use S3")] "pattern_1" =
      fuzzy_match_answer_text (strL "S3 struts")
        [(strL "A", strL "Use S3")] ∧
    flag_for_manual_review (fuzzy_match_answer_text (strL "S3 struts")
        [(strL "A", strL "Use S3")]) (7/10) = true := by
  have h := fuzzy_fallback_spec (strL "S3 struts")
    [(strL "A", strL "Use S3")] "pattern_1" (by decide)
  exact ⟨h.1, h.2.2⟩


/-- Confidence of the line_extraction candidate on the scenario: 0.65. -/
theorem conf_LE_val : calculate_aggressive_confidence
    ⟨strL "C. reate an S3 Transfer Acceleration endpoint. Use EBS snapshots.",
     strL "reate an S3 Transfer Acceleration endpoint. Use EBS snapshots.",
     strL "reate an S3 Transfer Acceleration endpoint. Use EBS snapshots.", []⟩
    scenarioCtx "line_extraction" scenarioQd.question_text scenarioQd.options
    = 13/20 := by
  have hmb : method_bonus "line_extraction" = 1/10 := by simp [method_bonus]
  have ha : (aws_keywords_ag.filter (fun kw =>
      containsSub (pyLower (strL "reate an S3 Transfer Acceleration endpoint. Use EBS snapshots."))
        (pyLower kw))).length = 2 := by decide
  have hb : (action_keywords_ag.filter (fun w =>
      containsSub (pyLower (strL "reate an S3 Transfer Acceleration endpoint. Use EBS snapshots."))
        w)).length = 1 := by decide
  have hov : (((pySplitWs (pyLower scenarioQd.question_text)).dedup).filter (fun w =>
      (pySplitWs (pyLower (strL "reate an S3 Transfer Acceleration endpoint. Use EBS snapshots."))).contains
        w)).length = 1 := by decide
  simp only [calculate_aggressive_confidence, hmb, ha, hb, hov]
  norm_num [show (strL "reate an S3 Transfer Acceleration endpoint. Use EBS snapshots.").length = 62
      from by decide,
    show scenarioQd.question_text.isEmpty = false from by decide,
    min_def, max_def]

/-- Confidence of the standalone_action candidate on the scenario: 0.67. -/
theorem conf_SA_val : calculate_aggressive_confidence
    ⟨strL "Create an S3 Transfer Acceleration endpoint.",
     strL "reate an S3 Transfer Acceleration endpoint.",
     strL "reate an S3 Transfer Acceleration endpoint.", []⟩
    scenarioCtx "standalone_action" scenarioQd.question_text scenarioQd.options
    = 67/100 := by
  have hmb : method_bonus "standalone_action" = 1/5 := by simp [method_bonus]
  have ha : (aws_keywords_ag.filter (fun kw =>
      containsSub (pyLower (strL "reate an S3 Transfer Acceleration endpoint."))
        (pyLower kw))).length = 1 := by decide
  have hb : (action_keywords_ag.filter (fun w =>
      containsSub (pyLower (strL "reate an S3 Transfer Acceleration endpoint."))
        w)).length = 0 := by decide
  have hov : (((pySplitWs (pyLower scenarioQd.question_text)).dedup).filter (fun w =>
      (pySplitWs (pyLower (strL "reate an S3 Transfer Acceleration endpoint."))).contains
        w)).length = 1 := by decide
  simp only [calculate_aggressive_confidence, hmb, ha, hb, hov]
  norm_num [show (strL "reate an S3 Transfer Acceleration endpoint.").length = 43
      from by decide,
    show scenarioQd.question_text.isEmpty = false from by decide,
    min_def, max_def]

/-- Confidence of the first option_context candidate on the scenario: 0.65. -/
theorem conf_OC1_val : calculate_aggressive_confidence
    ⟨strL "Which solution improves S3 upload speed with minimal changes?",
     strL "Which solution improves S3 upload speed with minimal changes?",
     strL "Which solution improves S3 upload speed with minimal changes?", []⟩
    scenarioCtx "option_context" scenarioQd.question_text scenarioQd.options
    = 13/20 := by
  have hmb : method_bonus "option_context" = 1/10 := by simp [method_bonus]
  have ha : (aws_keywords_ag.filter (fun kw =>
      containsSub (pyLower (strL "Which solution improves S3 upload speed with minimal changes?"))
        (pyLower kw))).length = 1 := by decide
  have hb : (action_keywords_ag.filter (fun w =>
      containsSub (pyLower (strL "Which solution improves S3 upload speed with minimal changes?"))
        w)).length = 0 := by decide
  have hov : (((pySplitWs (pyLower scenarioQd.question_text)).dedup).filter (fun w =>
      (pySplitWs (pyLower (strL "Which solution improves S3 upload speed with minimal changes?"))).contains
        w)).length = 9 := by decide
  simp only [calculate_aggressive_confidence, hmb, ha, hb, hov]
  norm_num [show (strL "Which solution improves S3 upload speed with minimal changes?").length = 61
      from by decide,
    show scenarioQd.question_text.isEmpty = false from by decide,
    min_def, max_def]

/-- Confidence of the second option_context candidate on the scenario: 0.57. -/
theorem conf_OC2_val : calculate_aggressive_confidence
    ⟨strL "Create an S3 Transfer Acceleration endpoint.",
     strL "reate an S3 Transfer Acceleration endpoint.",
     strL "reate an S3 Transfer Acceleration endpoint.", []⟩
    scenarioCtx "option_context" scenarioQd.question_text scenarioQd.options
    = 57/100 := by
  have hmb : method_bonus "option_context" = 1/10 := by simp [method_bonus]
  have ha : (aws_keywords_ag.filter (fun kw =>
      containsSub (pyLower (strL "reate an S3 Transfer Acceleration endpoint."))
        (pyLower kw))).length = 1 := by decide
  have hb : (action_keywords_ag.filter (fun w =>
      containsSub (pyLower (strL "reate an S3 Transfer Acceleration endpoint."))
        w)).length = 0 := by decide
  have hov : (((pySplitWs (pyLower scenarioQd.question_text)).dedup).filter (fun w =>
      (pySplitWs (pyLower (strL "reate an S3 Transfer Acceleration endpoint."))).contains
        w)).length = 1 := by decide
  simp only [calculate_aggressive_confidence, hmb, ha, hb, hov]
  norm_num [show (strL "reate an S3 Transfer Acceleration endpoint.").length = 43
      from by decide,
    show scenarioQd.question_text.isEmpty = false from by decide,
    min_def, max_def]

/-- The pattern cascade on the scenario keeps the standalone_action candidate. -/
theorem scenario_best1 :
    aggBest1 scenarioQd scenarioCtx scenarioPatternResults = scenarioBest := by
  have hpmLE : process_aggressive_match
      (AggMatch.tup (strL "C")
        (strL "reate an S3 Transfer Acceleration endpoint. Use EBS snapshots."))
      "line_extraction" = some
      ⟨strL "C. reate an S3 Transfer Acceleration endpoint. Use EBS snapshots.",
       strL "reate an S3 Transfer Acceleration endpoint. Use EBS snapshots.",
       strL "reate an S3 Transfer Acceleration endpoint. Use EBS snapshots.", []⟩ := by
    decide
  have hpmSA : process_aggressive_match
      (AggMatch.single (strL "Create an S3 Transfer Acceleration endpoint."))
      "standalone_action" = some
      ⟨strL "Create an S3 Transfer Acceleration endpoint.",
       strL "reate an S3 Transfer Acceleration endpoint.",
       strL "reate an S3 Transfer Acceleration endpoint.", []⟩ := by
    decide
  have hpmOC1 : process_aggressive_match
      (AggMatch.single (strL "Which solution improves S3 upload speed with minimal changes?"))
      "option_context" = some
      ⟨strL "Which solution improves S3 upload speed with minimal changes?",
       strL "Which solution improves S3 upload speed with minimal changes?",
       strL "Which solution improves S3 upload speed with minimal changes?", []⟩ := by
    decide
  have hpmOC2 : process_aggressive_match
      (AggMatch.single (strL "Create an S3 Transfer Acceleration endpoint."))
      "option_context" = some
      ⟨strL "Create an S3 Transfer Acceleration endpoint.",
       strL "reate an S3 Transfer Acceleration endpoint.",
       strL "reate an S3 Transfer Acceleration endpoint.", []⟩ := by
    decide
  simp only [aggBest1, aggPatternPhase, scenarioPatternResults, List.foldl_cons,
    List.foldl_nil, hpmLE, hpmSA, hpmOC1, hpmOC2, conf_LE_val, conf_SA_val,
    conf_OC1_val, conf_OC2_val, scenarioBest]
  norm_num


/-- Neither inference stage runs on the scenario: 0.67 is above both gates. -/
theorem scenario_best3 :
    aggBest3 scenarioQd scenarioCtx scenarioPatternResults = scenarioBest := by
  have h2 : aggBest2 scenarioQd scenarioCtx scenarioPatternResults =
      scenarioBest := by
    simp only [aggBest2, scenario_best1, scenarioBest]
    norm_num
  simp only [aggBest3, h2, scenarioBest]
  norm_num

/-- Letter extraction on the scenario raw text: the case-insensitive pair
pattern matches lower-case letters inside ordinary words, yielding A and E. -/
theorem scenario_letters : extract_answer_letters_ag
    (strL "Create an S3 Transfer Acceleration endpoint.") = ['A', 'E'] := by
  have h15 : ((alpPat1 (strL "Create an S3 Transfer Acceleration endpoint.") ++
      scanB (tryWordLetter [strL "Answer", strL "Solution", strL "Correct"]) none
        (strL "Create an S3 Transfer Acceleration endpoint.") ++
      scanB (tryWordLetter [strL "Option", strL "Choice"]) none
        (strL "Create an S3 Transfer Acceleration endpoint.") ++
      scanB tryBoundIsCorrect none
        (strL "Create an S3 Transfer Acceleration endpoint.") ++
      scanB tryLetterPair none
        (strL "Create an S3 Transfer Acceleration endpoint.")).map pyUpperChar).dedup
      = ['E', 'A'] := by decide
  simp only [extract_answer_letters_ag, h15]
  have hms : (['E', 'A'].mergeSort (fun a b => decide (a ≤ b))) = ['A', 'E'] := by
    simp [List.mergeSort]
  rw [hms]
  rfl

/-- Finalizing the scenario best state yields the scenario answer record. -/
theorem scenario_finalize :
    finalizeAggBest scenarioQd scenarioBest = some scenarioAnswer := by
  simp only [finalizeAggBest, scenarioBest, scenario_letters]
  rw [if_pos (by norm_num : (1/5 : ℚ) ≤ 67/100)]
  rfl

/-- The full aggressive extraction on the scenario. -/
theorem scenario_extract :
    extract_answer_aggressively scenarioQd scenarioCtx scenarioPatternResults =
      some scenarioAnswer := by
  rw [extract_answer_aggressively,
    if_neg (by decide : ¬ scenarioCtx.isEmpty = true), scenario_best3]
  exact scenario_finalize

/-- C6: pattern-based extraction is attempted first; context inference runs
only when no pattern candidate exists or the best pattern confidence is
below 0.4, and never replaces a best of confidence at least 0.35 (its own
fixed confidence); keyword inference runs only when the best so far is
absent or below 0.3, and never replaces a best of confidence at least 0.25;
the emitted answer is built from the staged best. -/
theorem aggressive_escalation (qd : QuestionDataAg) (ctx : Str)
    (prs : List (String × List AggMatch)) (h : ctx.isEmpty = false) :
    ((aggBest1 qd ctx prs).answer.isSome = true →
      (2/5 : ℚ) ≤ (aggBest1 qd ctx prs).conf →
      aggBest2 qd ctx prs = aggBest1 qd ctx prs) ∧
    ((aggBest2 qd ctx prs).answer.isSome = true →
      (3/10 : ℚ) ≤ (aggBest2 qd ctx prs).conf →
      aggBest3 qd ctx prs = aggBest2 qd ctx prs) ∧
    ((7/20 : ℚ) ≤ (aggBest1 qd ctx prs).conf →
      aggBest2 qd ctx prs = aggBest1 qd ctx prs) ∧
    ((1/4 : ℚ) ≤ (aggBest2 qd ctx prs).conf →
      aggBest3 qd ctx prs = aggBest2 qd ctx prs) ∧
    extract_answer_aggressively qd ctx prs =
      finalizeAggBest qd (aggBest3 qd ctx prs) := by
  refine ⟨?_, ?_, ?_, ?_, ?_⟩
  · intro hs hc
    have hno : (aggBest1 qd ctx prs).answer.isNone = false := by
      cases hx : (aggBest1 qd ctx prs).answer with
      | none => rw [hx] at hs; simp at hs
      | some a => rfl
    have hlt : decide ((aggBest1 qd ctx prs).conf < 2/5) = false :=
      decide_eq_false (not_lt.mpr hc)
    simp [aggBest2, hno, hlt]
  · intro hs hc
    have hno : (aggBest2 qd ctx prs).answer.isNone = false := by
      cases hx : (aggBest2 qd ctx prs).answer with
      | none => rw [hx] at hs; simp at hs
      | some a => rfl
    have hlt : decide ((aggBest2 qd ctx prs).conf < 3/10) = false :=
      decide_eq_false (not_lt.mpr hc)
    simp [aggBest3, hno, hlt]
  · intro hc
    simp only [aggBest2]
    split
    · cases hinf : infer_from_context qd.question_text qd.options ctx with
      | none => rfl
      | some inferred =>
        simp only [hinf]
        rw [if_neg (not_lt.mpr hc)]
    · rfl
  · intro hc
    simp only [aggBest3]
    split
    · cases hinf : infer_from_keywords qd.question_text qd.options ctx with
      | none => rfl
      | some kw =>
        simp only [hinf]
        rw [if_neg (not_lt.mpr hc)]
    · rfl
  · simp [extract_answer_aggressively, h]


/-- C6 witness: the escalation properties at the spec section 8 scenario,
whose question context is nonempty. -/
theorem aggressive_escalation_witness :
    ((aggBest1 scenarioQd scenarioCtx scenarioPatternResults).answer.isSome = true →
      (2/5 : ℚ) ≤ (aggBest1 scenarioQd scenarioCtx scenarioPatternResults).conf →
      aggBest2 scenarioQd scenarioCtx scenarioPatternResults =
        aggBest1 scenarioQd scenarioCtx scenarioPatternResults) ∧
    ((aggBest2 scenarioQd scenarioCtx scenarioPatternResults).answer.isSome = true →
      (3/10 : ℚ) ≤ (aggBest2 scenarioQd scenarioCtx scenarioPatternResults).conf →
      aggBest3 scenarioQd scenarioCtx scenarioPatternResults =
        aggBest2 scenarioQd scenarioCtx scenarioPatternResults) ∧
    ((7/20 : ℚ) ≤ (aggBest1 scenarioQd scenarioCtx scenarioPatternResults).conf →
      aggBest2 scenarioQd scenarioCtx scenarioPatternResults =
        aggBest1 scenarioQd scenarioCtx scenarioPatternResults) ∧
    ((1/4 : ℚ) ≤ (aggBest2 scenarioQd scenarioCtx scenarioPatternResults).conf →
      aggBest3 scenarioQd scenarioCtx scenarioPatternResults =
        aggBest2 scenarioQd scenarioCtx scenarioPatternResults) ∧
    extract_answer_aggressively scenarioQd scenarioCtx scenarioPatternResults =
      finalizeAggBest scenarioQd
        (aggBest3 scenarioQd scenarioCtx scenarioPatternResults) :=
  aggressive_escalation scenarioQd scenarioCtx scenarioPatternResults (by decide)

/-- C8 as amended: every finalized aggressive answer has
`requires_manual_review = true`, mapping method `aggressive_extraction`,
and inherits its candidate issue list; the two inference strategies record
their scoring method (`context_inference` / `keyword_inference`) as the
sole issue, while pattern-based candidates carry an empty issue list; on
the spec section 8 scenario the result is the `standalone_action`
candidate, flagged for manual review, with an empty issue list. -/
theorem standalone_action_scenario (qd : QuestionDataAg) (best : BestState)
    (r : AggAnswer) (hfin : finalizeAggBest qd best = some r) :
    (r.requires_manual_review = true ∧
     r.mapping_method = "aggressive_extraction" ∧
     ∃ cand : AggCandidate, best.answer = some cand ∧
       r.mapping_issues = cand.issues) ∧
    (∀ (qt : Str) (opts : List AgOption) (ctx : Str) (c : AggCandidate),
      infer_from_context qt opts ctx = some c →
      c.issues = ["context_inference"]) ∧
    (∀ (qt : Str) (opts : List AgOption) (ctx : Str) (c : AggCandidate),
      infer_from_keywords qt opts ctx = some c →
      c.issues = ["keyword_inference"]) ∧
    (∀ (m : AggMatch) (name : String) (c : AggCandidate),
      process_aggressive_match m name = some c → c.issues = []) ∧
    (extract_answer_aggressively scenarioQd scenarioCtx
        scenarioPatternResults).map
      (fun a => (a.extraction_method, a.requires_manual_review,
        a.mapping_issues)) =
      some ("standalone_action", true, ([] : List String)) := by
  refine ⟨?_, ?_, ?_, ?_, ?_⟩
  · simp only [finalizeAggBest] at hfin
    split at hfin
    · cases hfin
    · rename_i cand hb
      split at hfin
      · split at hfin
        · cases hfin
        · simp only [Option.some.injEq] at hfin
          subst hfin
          exact ⟨rfl, rfl, cand, hb, rfl⟩
      · cases hfin
  · intro qt opts ctx c hc
    simp only [infer_from_context] at hc
    split at hc
    · cases hc
    · split at hc
      · cases hc
      · split at hc
        · simp only [Option.some.injEq] at hc
          subst hc
          rfl
        · cases hc
  · intro qt opts ctx c hc
    simp only [infer_from_keywords] at hc
    split at hc
    · cases hc
    · split at hc
      · cases hc
      · split at hc
        · simp only [Option.some.injEq] at hc
          subst hc
          rfl
        · cases hc
  · intro m name c hc
    cases m <;>
      simp only [process_aggressive_match] at hc <;>
      split at hc <;> split at hc <;>
      first
        | (simp only [Option.some.injEq] at hc; subst hc; rfl)
        | cases hc
  · rw [scenario_extract]
    rfl

/-- C8 witness: the amended properties at the scenario best state and its
finalized record. -/
theorem standalone_action_scenario_witness :
    (scenarioAnswer.requires_manual_review = true ∧
     scenarioAnswer.mapping_method = "aggressive_extraction" ∧
     ∃ cand : AggCandidate, scenarioBest.answer = some cand ∧
       scenarioAnswer.mapping_issues = cand.issues) ∧
    (∀ (qt : Str) (opts : List AgOption) (ctx : Str) (c : AggCandidate),
      infer_from_context qt opts ctx = some c →
      c.issues = ["context_inference"]) ∧
    (∀ (qt : Str) (opts : List AgOption) (ctx : Str) (c : AggCandidate),
      infer_from_keywords qt opts ctx = some c →
      c.issues = ["keyword_inference"]) ∧
    (∀ (m : AggMatch) (name : String) (c : AggCandidate),
      process_aggressive_match m name = some c → c.issues = []) ∧
    (extract_answer_aggressively scenarioQd scenarioCtx
        scenarioPatternResults).map
      (fun a => (a.extraction_method, a.requires_manual_review,
        a.mapping_issues)) =
      some ("standalone_action", true, ([] : List String)) :=
  standalone_action_scenario scenarioQd scenarioBest scenarioAnswer
    scenario_finalize

/-- C8 counterexample: the claim says the scoring method is recorded in
the issue list; on the very scenario the claim describes, the emitted
`standalone_action` record has an empty issue list, so the scoring method
is not in it (only the inference strategies write their method there). -/
theorem standalone_issue_list_counterexample :
    (extract_answer_aggressively scenarioQd scenarioCtx
        scenarioPatternResults).map
      (fun a => (a.extraction_method,
        a.mapping_issues.contains a.extraction_method,
        a.mapping_issues.isEmpty, a.requires_manual_review)) =
      some ("standalone_action", false, true, true) := by
  rw [scenario_extract]
  rfl

end StudyApp
